import Mathlib

/-!
Verification development for the browser-profile synthesis pipeline.

The TypeScript sources are shallowly embedded: JS strings become `List Char`,
JS numbers that hold integral timestamps/counts become `Int`, similarity
scores become `Rat`, JS `Date` values become `Option Int` (milliseconds,
`none` for an invalid date), and absent (`undefined`) record fields become
`Option` fields.  Every definition is a direct translation of the function of
the same name in the repository; library calls (`new URL`, `toLowerCase`,
`trim`, `parseInt`) are modelled explicitly, with their documented
approximations stated in the doc comments.
-/

/-- JS strings are modelled as lists of characters. -/
abbrev JStr := List Char

/-- ASCII lowercasing of one character.  Models JS `String.prototype.toLowerCase`
and the WHATWG URL parser's host lowercasing on the ASCII range (all inputs
relevant to the claims are ASCII; non-ASCII characters are left unchanged). -/
def lowerChar (c : Char) : Char :=
  if 65 ≤ c.toNat ∧ c.toNat ≤ 90 then Char.ofNat (c.toNat + 32) else c

/-- Whitespace as recognised by JS `String.prototype.trim` (restricted to the
code points that can occur in this development's inputs). -/
def isJsWs (c : Char) : Bool :=
  c == ' ' || c == '\t' || c == '\n' || c == '\r' || c == '\x0b' || c == '\x0c' ||
  c == '\u00A0' || c == '\uFEFF'

/-- Leading/trailing stripping used by the WHATWG URL parser: C0 controls and space. -/
def isC0Space (c : Char) : Bool := c.toNat ≤ 32

/-- Drop characters satisfying `p` from both ends of a list. -/
def trimEnds (p : Char → Bool) (l : JStr) : JStr :=
  ((l.dropWhile p).reverse.dropWhile p).reverse

/-- JS `String.prototype.trim`. -/
def jsTrim (l : JStr) : JStr := trimEnds isJsWs l

/-- JS `String.prototype.toLowerCase` (ASCII model). -/
def jsToLower (l : JStr) : JStr := l.map lowerChar

/-- Does `s` start with `pre`?  Models JS `String.prototype.startsWith` /
the regex anchor used in the sources. -/
def begWith : JStr → JStr → Bool
  | [], _ => true
  | _ :: _, [] => false
  | a :: p, b :: s => a == b && begWith p s

/-- JS `String.prototype.includes`: does `hay` contain `needle` as a contiguous part? -/
def includesSub : JStr → JStr → Bool
  | hay, needle =>
    if begWith needle hay then true
    else match hay with
      | [] => false
      | _ :: t => includesSub t needle

/-- Split a list on a separator character, JS `String.prototype.split` semantics
(`"a//b".split('/') = ["a","","b"]`, `"".split('/') = [""]`). -/
def splitOnChar (sep : Char) : JStr → List JStr
  | [] => [[]]
  | c :: t =>
    if c = sep then [] :: splitOnChar sep t
    else match splitOnChar sep t with
      | h :: r => (c :: h) :: r
      | [] => [[c]]

/-- Decimal rendering of a natural number as a JS string. -/
def natToJStr (n : Nat) : JStr := (Nat.repr n).data

/-- Decimal rendering of an integer as a JS string. -/
def intToJStr (n : Int) : JStr := (Int.repr n).data

/-- JS `parseInt` on a string argument: optional leading whitespace, optional
sign, then a maximal run of decimal digits; `none` models `NaN` (no digits).
Hexadecimal prefixes and other radices do not occur in this repository's data. -/
def parseIntJS (s : JStr) : Option Int :=
  let t := s.dropWhile isJsWs
  let (sign, t) : Int × JStr :=
    match t with
    | '-' :: r => (-1, r)
    | '+' :: r => (1, r)
    | r => (1, r)
  let digits := t.takeWhile (·.isDigit)
  if digits.isEmpty then none
  else some (sign * (digits.foldl (fun a c => a * 10 + (c.toNat - '0'.toNat)) 0 : Nat))

/-- JS falsy-default `v || d` for an optional string field
(`undefined` and `""` are falsy). -/
def orStr (v : Option JStr) (d : JStr) : JStr :=
  match v with
  | some s => if s.isEmpty then d else s
  | none => d

/-- JS falsy-default `v || d` for an optional number field
(`undefined` and `0` are falsy). -/
def orInt (v : Option Int) (d : Int) : Int :=
  match v with
  | some n => if n = 0 then d else n
  | none => d

/-- JS `Date` comparison `a < b`: dates are `Option Int` milliseconds with
`none` for an invalid date (`NaN`); every comparison against `NaN` is false. -/
def dateLt (a b : Option Int) : Bool :=
  match a, b with
  | some x, some y => decide (x < y)
  | _, _ => false

/-! ## WHATWG URL model

The sources call `new URL(url)` and read `protocol`, `hostname`, `pathname`
and the query parameters.  The model below covers absolute `http`/`https`
URLs whose host consists of letters, digits, `-`, `.`, `_` and whose path
consists of ordinary path characters; ports and userinfo are parsed and
dropped exactly as the real accessors drop them, extra slashes after the
scheme are skipped as the spec's special-scheme parser does, and the host is
lowercased.  Inputs outside this fragment (other schemes, characters that the
real parser would percent-encode or reject, backslash paths) are mapped to a
parse failure, i.e. to the `catch` branch of the calling code. -/

structure URLObj where
  protocol : JStr
  hostname : JStr
  pathname : JStr
deriving DecidableEq, Repr

/-- Characters accepted in a hostname by the model: ASCII letters (code
points 65-90 and 97-122), digits (48-57), `-`, `.` and `_`. -/
def isHostChar (c : Char) : Bool :=
  (65 ≤ c.toNat && c.toNat ≤ 90) || (97 ≤ c.toNat && c.toNat ≤ 122) ||
  (48 ≤ c.toNat && c.toNat ≤ 57) || c == '-' || c == '.' || c == '_'

/-- Characters accepted in a path by the model (RFC 3986 path characters
without percent-decoding; `%` is carried through verbatim as the real
`pathname` accessor carries valid escapes through). -/
def isPathChar (c : Char) : Bool :=
  (65 ≤ c.toNat && c.toNat ≤ 90) || (97 ≤ c.toNat && c.toNat ≤ 122) ||
  (48 ≤ c.toNat && c.toNat ≤ 57) ||
  c == '/' || c == '-' || c == '.' || c == '_' || c == '~' ||
  c == '!' || c == '$' || c == '&' || c == '(' || c == ')' || c == '*' ||
  c == '+' || c == ',' || c == ';' || c == '=' || c == ':' || c == '@' || c == '%'

/-- Characters terminating the authority component. -/
def isAuthEnd (c : Char) : Bool :=
  c == '/' || c == '?' || c == '#' || c == '\\'

/-- Keep everything after the last `@` (the WHATWG parser treats everything
before the last `@` of the authority as userinfo). -/
def afterLastAt (l : JStr) : JStr :=
  (l.reverse.takeWhile (· != '@')).reverse

/-- Input preprocessing performed by the URL parser: strip leading/trailing
C0 controls and spaces, then remove all tabs and newlines. -/
def urlPre (l : JStr) : JStr :=
  (trimEnds isC0Space l).filter (fun c => !(c == '\t' || c == '\n' || c == '\r'))

/-- Authority/path parsing shared by the `http` and `https` branches.
`proto` is the canonical protocol (with the colon), `rest` is the input after
the scheme and the two slashes. -/
def parseFrom (proto : JStr) (rest : JStr) : Option URLObj :=
  let rest := rest.dropWhile (fun c => c == '/' || c == '\\')
  let auth := rest.takeWhile (fun c => !isAuthEnd c)
  let tail := rest.dropWhile (fun c => !isAuthEnd c)
  let hp := afterLastAt auth
  let host := (hp.takeWhile (· != ':')).map lowerChar
  let port := (hp.dropWhile (· != ':')).drop 1
  if host.isEmpty then none
  else if !host.all isHostChar then none
  else if !port.all (·.isDigit) then none
  else
    let rawPath := tail.takeWhile (fun c => !(c == '?' || c == '#'))
    if !rawPath.all isPathChar then none
    else some { protocol := proto, hostname := host,
                pathname := if rawPath.isEmpty then ['/'] else rawPath }

/-- The model of `new URL(u)`: `some` components on success, `none` when the
constructor would throw (or when the input is outside the modelled fragment). -/
def parseUrl (u : JStr) : Option URLObj :=
  let s := urlPre u
  let ls := s.map lowerChar
  if begWith "https://".data ls then parseFrom "https:".data (s.drop 8)
  else if begWith "http://".data ls then parseFrom "http:".data (s.drop 7)
  else none

/-- Strip one leading `www.`, the JS `hostname.replace(/^www\./, '')`. -/
def stripWww (h : JStr) : JStr :=
  if begWith "www.".data h then h.drop 4 else h

/-- Strip trailing slashes, the JS `normalized.replace(/\/+$/, '')`. -/
def rstripSlashes (l : JStr) : JStr :=
  (l.reverse.dropWhile (· == '/')).reverse

namespace DeduplicationEngine

/-- The string `normalizeUrl` rebuilds from a parsed URL:
`urlObj.protocol + '//' + urlObj.hostname.replace(/^www\./, '') +
urlObj.pathname`, with trailing slashes removed. -/
def renderNorm (o : URLObj) : JStr :=
  rstripSlashes (o.protocol ++ "//".data ++ stripWww o.hostname ++ o.pathname)

/-- `DeduplicationEngine.normalizeUrl` (src/src/utils/deduplicationEngine.ts,
lines 267-277): on a parseable URL, rebuild `protocol + '//' + hostname`
(with one leading `www.` stripped) `+ pathname` and drop trailing slashes;
on a parse failure, return `url.toLowerCase().trim()`. -/
def normalizeUrl (u : JStr) : JStr :=
  match parseUrl u with
  | some o => renderNorm o
  | none => jsTrim (jsToLower u)

end DeduplicationEngine

/-- Browser families (src/types/types.ts, `enum BrowserType`). -/
inductive BrowserType
  | firefox | chrome | edge | brave | chromium
deriving DecidableEq, Repr

namespace UniversalDataNormalizer

/-- `UniversalBookmark` of universalDataNormalizer.ts.  `Date` fields are
`Option Int` milliseconds (`none` = invalid date); optional TS fields are
`Option` as well. -/
structure UniversalBookmark where
  id : JStr
  title : JStr
  url : JStr
  folder : List JStr
  dateAdded : Option Int
  dateModified : Option Int
  sourceProfile : JStr
  sourceBrowser : BrowserType
  tags : List JStr
  description : Option JStr
  favicon : Option JStr
  visitCount : Option Int
deriving DecidableEq, Repr

/-- `UniversalHistoryEntry` of universalDataNormalizer.ts. -/
structure UniversalHistoryEntry where
  id : JStr
  url : JStr
  title : JStr
  visitCount : Int
  lastVisit : Option Int
  firstVisit : Option Int
  sourceProfile : JStr
  sourceBrowser : BrowserType
  duration : Option Int
  referrer : Option JStr
  searchTerm : Option JStr
deriving DecidableEq, Repr

/-- `UniversalLogin` of universalDataNormalizer.ts. -/
structure UniversalLogin where
  id : JStr
  url : JStr
  domain : JStr
  username : JStr
  passwordHash : JStr
  dateCreated : Option Int
  dateLastUsed : Option Int
  datePasswordChanged : Option Int
  sourceProfile : JStr
  sourceBrowser : BrowserType
  formSubmitUrl : Option JStr
  usernameField : Option JStr
  passwordField : Option JStr
  timesUsed : Int
deriving DecidableEq, Repr

/-- The slice of `NormalizedDataSet` read by the deduplication engine
(`analyzeDataset` touches only these three arrays; the metadata counter is
used for a log line only). -/
structure NormalizedDataSet where
  bookmarks : List UniversalBookmark
  history : List UniversalHistoryEntry
  logins : List UniversalLogin
deriving DecidableEq, Repr

end UniversalDataNormalizer

namespace DeduplicationEngine

open UniversalDataNormalizer

/-- `DeduplicationConfig` of deduplicationEngine.ts; the per-type strategies
are the literal strings the code switches on. -/
structure DeduplicationConfig where
  bookmarkStrategy : JStr
  historyStrategy : JStr
  loginStrategy : JStr
  urlSimilarityThreshold : Rat
  titleSimilarityThreshold : Rat
  autoApproveHighConfidence : Bool
  previewAllChanges : Bool
deriving DecidableEq, Repr

/-- Records held in a duplicate group (`items: any[]` in the source holds the
per-type record objects). -/
inductive DupRecord
  | bm (b : UniversalBookmark)
  | hist (h : UniversalHistoryEntry)
  | login (l : UniversalLogin)
deriving DecidableEq, Repr

/-- The `type` discriminator string of a `DuplicateGroup`. -/
inductive DupType
  | bookmark | history | login
deriving DecidableEq, Repr

/-- `DuplicateGroup` of deduplicationEngine.ts. -/
structure DuplicateGroup where
  id : JStr
  type : DupType
  items : List DupRecord
  confidence : Rat
  reason : JStr
  suggestedKeep : Option DupRecord
deriving DecidableEq, Repr

/-- `DeduplicationResult` of deduplicationEngine.ts. -/
structure DeduplicationResult where
  duplicateGroups : List DuplicateGroup
  potentialMerges : Int
  estimatedReduction : Int
  requiresUserReview : Int
deriving DecidableEq, Repr

/-- One row of the Levenshtein matrix after the first cell: `levCells b s1 prev
left` produces the cells `new[1..]` of the next row, where `prev` starts at the
diagonal predecessor `prev[i-1]`, `left` is the cell to the left, and `b` is
the current character of the second string.  This computes exactly the
recurrence of `levenshteinDistance`'s matrix in the source
(`matrix[j][i] = min(matrix[j][i-1]+1, matrix[j-1][i]+1, matrix[j-1][i-1]+ind)`). -/
def levCells (b : Char) : JStr → List Nat → Nat → List Nat
  | [], _, _ => []
  | a :: s, prev, left =>
    match prev with
    | diag :: rest =>
      let up := rest.headD 0
      let cell := Nat.min (Nat.min (left + 1) (up + 1)) (diag + (if a = b then 0 else 1))
      cell :: levCells b s rest cell
    | [] => []

/-- `DeduplicationEngine.levenshteinDistance` (lines 246-264), computed row by
row instead of as a full matrix; row `j` begins with `matrix[j][0] = j` and the
result is the bottom-right cell. -/
def levenshteinDistance (s1 s2 : JStr) : Nat :=
  let row0 : List Nat := List.range (s1.length + 1)
  let final := s2.foldl (fun (st : List Nat × Nat) b =>
    let j := st.2 + 1
    (j :: levCells b s1 st.1 j, j)) (row0, 0)
  final.1.getLastD 0

/-- `DeduplicationEngine.calculateStringSimilarity` (lines 233-243). -/
def calculateStringSimilarity (str1 str2 : JStr) : Rat :=
  if str1 = str2 then 1
  else
    let longer := if str1.length > str2.length then str1 else str2
    let shorter := if str1.length > str2.length then str2 else str1
    if longer.length = 0 then 1
    else ((longer.length : Rat) -
          (levenshteinDistance (jsToLower longer) (jsToLower shorter) : Rat)) /
         (longer.length : Rat)

/-- `DeduplicationEngine.calculateUrlSimilarity` (lines 216-230). -/
def calculateUrlSimilarity (url1 url2 : JStr) : Rat :=
  if url1 = url2 then 1
  else
    let norm1 := normalizeUrl url1
    let norm2 := normalizeUrl url2
    if norm1 = norm2 then 95 / 100
    else if includesSub norm1 norm2 || includesSub norm2 norm1 then 8 / 10
    else calculateStringSimilarity norm1 norm2

/-- `DeduplicationEngine.calculateBookmarkSimilarity` (lines 208-213), as the
pair (url similarity, title similarity). -/
def calculateBookmarkSimilarity (b1 b2 : UniversalBookmark) : Rat × Rat :=
  (calculateUrlSimilarity b1.url b2.url, calculateStringSimilarity b1.title b2.title)

/-- `visitCount || 0` read of a bookmark. -/
def bmVisits (b : UniversalBookmark) : Int := b.visitCount.getD 0

/-- `DeduplicationEngine.suggestBookmarkToKeep` (lines 280-297); JS `reduce`
starts from the first element.  The engine never calls this on `[]` (a JS
`reduce` on `[]` would throw), hence the `Option`. -/
def suggestBookmarkToKeep (bs : List UniversalBookmark) (strategy : JStr) :
    Option UniversalBookmark :=
  match bs with
  | [] => none
  | x :: xs =>
    some <|
      if strategy = "keep_newest".data then
        xs.foldl (fun newest cur => if dateLt newest.dateAdded cur.dateAdded then cur else newest) x
      else if strategy = "keep_oldest".data then
        xs.foldl (fun oldest cur => if dateLt cur.dateAdded oldest.dateAdded then cur else oldest) x
      else if strategy = "keep_most_used".data then
        xs.foldl (fun mostUsed cur => if bmVisits mostUsed < bmVisits cur then cur else mostUsed) x
      else x

/-- `DeduplicationEngine.suggestHistoryToKeep` (lines 300-318). -/
def suggestHistoryToKeep (es : List UniversalHistoryEntry) (strategy : JStr) :
    Option UniversalHistoryEntry :=
  match es with
  | [] => none
  | x :: xs =>
    some <|
      if strategy = "keep_newest".data then
        xs.foldl (fun newest cur => if dateLt newest.lastVisit cur.lastVisit then cur else newest) x
      else if strategy = "keep_most_visits".data || strategy = "merge_visits".data then
        xs.foldl (fun mostVisits cur => if mostVisits.visitCount < cur.visitCount then cur else mostVisits) x
      else x

/-- `DeduplicationEngine.suggestLoginToKeep` (lines 321-334). -/
def suggestLoginToKeep (ls : List UniversalLogin) (strategy : JStr) :
    Option UniversalLogin :=
  match ls with
  | [] => none
  | x :: xs =>
    some <|
      if strategy = "keep_newest".data then
        xs.foldl (fun newest cur => if dateLt newest.dateLastUsed cur.dateLastUsed then cur else newest) x
      else if strategy = "keep_most_used".data then
        xs.foldl (fun mostUsed cur => if mostUsed.timesUsed < cur.timesUsed then cur else mostUsed) x
      else x

/-- The `url` property the confidence check reads off a grouped record. -/
def recUrl : DupRecord → JStr
  | .bm b => b.url
  | .hist h => h.url
  | .login l => l.url

/-- The `(domain, username)` pair the confidence check reads off a record;
bookmark/history records have no such properties (`undefined` in JS). -/
def recDomainUser : DupRecord → Option (JStr × JStr)
  | .login l => some (l.domain, l.username)
  | _ => none

/-- `DeduplicationEngine.calculateGroupConfidence` (lines 337-354). -/
def calculateGroupConfidence (items : List DupRecord) (t : DupType) : Rat :=
  match items.head? with
  | none => 8 / 10
  | some h0 =>
    if t = .history ∧ items.all (fun i => recUrl i == recUrl h0) then 1
    else if t = .login ∧ items.all (fun i => recDomainUser i == recDomainUser h0) then 95 / 100
    else
      match t, items with
      | .bookmark, [DupRecord.bm a, DupRecord.bm b] =>
        let s := calculateBookmarkSimilarity a b
        max s.1 s.2
      | _, _ => 8 / 10

/-- `DeduplicationEngine.generateDuplicateReason` (lines 357-370). -/
def generateDuplicateReason (count : Nat) (t : DupType) : JStr :=
  match t with
  | .bookmark => natToJStr count ++ " bookmarks with similar URLs and titles".data
  | .history => natToJStr count ++ " history entries for the same URL".data
  | .login => natToJStr count ++ " login credentials for the same domain and username".data

/-- The grouping condition of `findBookmarkDuplicates` (lines 107-108):
`similarity.url >= urlThreshold || (similarity.title >= titleThreshold &&
similarity.url > 0.7)`. -/
def bookmarkMatchCond (cfg : DeduplicationConfig) (b o : UniversalBookmark) : Bool :=
  let sim := calculateBookmarkSimilarity b o
  decide (cfg.urlSimilarityThreshold ≤ sim.1) ||
    (decide (cfg.titleSimilarityThreshold ≤ sim.2) && decide ((7 : Rat) / 10 < sim.1))

/-- The inner `j` loop of `findBookmarkDuplicates` (lines 101-112): collect the
not-yet-processed later bookmarks similar to `b`, marking them processed. -/
def collectBookmarkDups (cfg : DeduplicationConfig) (b : UniversalBookmark) :
    List UniversalBookmark → List JStr → List UniversalBookmark × List JStr
  | [], processed => ([], processed)
  | o :: rest, processed =>
    if processed.contains o.id then collectBookmarkDups cfg b rest processed
    else if bookmarkMatchCond cfg b o then
      let (ds, pr) := collectBookmarkDups cfg b rest (processed ++ [o.id])
      (o :: ds, pr)
    else collectBookmarkDups cfg b rest processed

/-- The outer `i` loop of `findBookmarkDuplicates` (lines 93-127). -/
def findBMAux (cfg : DeduplicationConfig) :
    List UniversalBookmark → List JStr → List DuplicateGroup → List DuplicateGroup
  | [], _, groups => groups
  | b :: rest, processed, groups =>
    if processed.contains b.id then findBMAux cfg rest processed groups
    else
      let processed := processed ++ [b.id]
      let (ds, processed) := collectBookmarkDups cfg b rest processed
      let duplicates := b :: ds
      if duplicates.length > 1 then
        let items := duplicates.map DupRecord.bm
        let g : DuplicateGroup :=
          { id := "bookmark_dup_".data ++ natToJStr groups.length,
            type := .bookmark,
            items := items,
            confidence := calculateGroupConfidence items .bookmark,
            reason := generateDuplicateReason duplicates.length .bookmark,
            suggestedKeep := (suggestBookmarkToKeep duplicates cfg.bookmarkStrategy).map DupRecord.bm }
        findBMAux cfg rest processed (groups ++ [g])
      else findBMAux cfg rest processed groups

/-- `DeduplicationEngine.findBookmarkDuplicates` (lines 89-130). -/
def findBookmarkDuplicates (bookmarks : List UniversalBookmark)
    (cfg : DeduplicationConfig) : List DuplicateGroup :=
  findBMAux cfg bookmarks [] []

/-- Insert into an insertion-ordered multimap, modelling the JS `Map` of
`findHistoryDuplicates` (first occurrence fixes the key order, appends keep
the per-key order). -/
def groupInsert (key : JStr) (e : UniversalHistoryEntry) :
    List (JStr × List UniversalHistoryEntry) → List (JStr × List UniversalHistoryEntry)
  | [] => [(key, [e])]
  | (k, es) :: rest =>
    if k = key then (k, es ++ [e]) :: rest else (k, es) :: groupInsert key e rest

/-- `DeduplicationEngine.findHistoryDuplicates` (lines 133-163): group by
normalized URL, emit a confidence-1.0 group for every key with > 1 entry. -/
def findHistoryDuplicates (history : List UniversalHistoryEntry)
    (cfg : DeduplicationConfig) : List DuplicateGroup :=
  let urlGroups := history.foldl (fun m e => groupInsert (normalizeUrl e.url) e m) []
  urlGroups.foldl (fun groups ke =>
    let entries := ke.2
    if entries.length > 1 then
      groups ++ [{
        id := "history_dup_".data ++ natToJStr groups.length,
        type := .history,
        items := entries.map DupRecord.hist,
        confidence := 1,
        reason := "Identical URLs with ".data ++ natToJStr entries.length ++
                  " visits across browsers".data,
        suggestedKeep := (suggestHistoryToKeep entries cfg.historyStrategy).map DupRecord.hist }]
    else groups) []

/-- The inner `j` loop of `findLoginDuplicates` (lines 178-187). -/
def collectLoginDups (l : UniversalLogin) :
    List UniversalLogin → List JStr → List UniversalLogin × List JStr
  | [], processed => ([], processed)
  | o :: rest, processed =>
    if processed.contains o.id then collectLoginDups l rest processed
    else if l.domain == o.domain && l.username == o.username then
      let (ds, pr) := collectLoginDups l rest (processed ++ [o.id])
      (o :: ds, pr)
    else collectLoginDups l rest processed

/-- The outer `i` loop of `findLoginDuplicates` (lines 170-202). -/
def findLoginAux (cfg : DeduplicationConfig) :
    List UniversalLogin → List JStr → List DuplicateGroup → List DuplicateGroup
  | [], _, groups => groups
  | l :: rest, processed, groups =>
    if processed.contains l.id then findLoginAux cfg rest processed groups
    else
      let processed := processed ++ [l.id]
      let (ds, processed) := collectLoginDups l rest processed
      let duplicates := l :: ds
      if duplicates.length > 1 then
        let g : DuplicateGroup :=
          { id := "login_dup_".data ++ natToJStr groups.length,
            type := .login,
            items := duplicates.map DupRecord.login,
            confidence := 95 / 100,
            reason := "Same domain (".data ++ l.domain ++ ") and username (".data ++
                      l.username ++ ")".data,
            suggestedKeep := (suggestLoginToKeep duplicates cfg.loginStrategy).map DupRecord.login }
        findLoginAux cfg rest processed (groups ++ [g])
      else findLoginAux cfg rest processed groups

/-- `DeduplicationEngine.findLoginDuplicates` (lines 166-205). -/
def findLoginDuplicates (logins : List UniversalLogin)
    (cfg : DeduplicationConfig) : List DuplicateGroup :=
  findLoginAux cfg logins [] []

/-- `DeduplicationEngine.analyzeDataset` (lines 46-86). -/
def analyzeDataset (dataset : NormalizedDataSet) (cfg : DeduplicationConfig) :
    DeduplicationResult :=
  let duplicateGroups :=
    findBookmarkDuplicates dataset.bookmarks cfg ++
    findHistoryDuplicates dataset.history cfg ++
    findLoginDuplicates dataset.logins cfg
  let potentialMerges :=
    duplicateGroups.foldl (fun sum group => sum + (group.items.length : Int) - 1) 0
  let requiresUserReview :=
    (duplicateGroups.filter (fun group =>
      decide (group.confidence < 9 / 10) || !cfg.autoApproveHighConfidence)).length
  { duplicateGroups := duplicateGroups,
    potentialMerges := potentialMerges,
    estimatedReduction := potentialMerges,
    requiresUserReview := (requiresUserReview : Int) }

end DeduplicationEngine

namespace EnhancedMergeEngine

/-- `ConflictResolution` (src/types/types.ts, lines 40-46).  The source's
`shouldReplace*` switches also name `ConflictResolution.KEEP_MOST_USED`, but
no such member exists in the enum, so that case can never match at runtime;
it is therefore absent here and falls into the default. -/
inductive ConflictResolution
  | keep_newest | keep_oldest | manual | keep_all | custom
deriving DecidableEq, Repr

/-- `MergeDataType` (src/types/types.ts, lines 48-59). -/
inductive MergeDataType
  | bookmarks | history | passwords | cookies | extensions | preferences
  | form_history | permissions | sessions | all
deriving DecidableEq, Repr

/-- A bookmark record as produced by `RealDataExtractor` and consumed by the
merge engine (the fields the engine reads and writes; `Date` values are `Int`
milliseconds here because the engine only compares them). -/
structure MBookmark where
  id : JStr
  title : JStr
  url : JStr
  dateAdded : Int
  lastModified : Int
  visitCount : Int
  mergedFrom : Option JStr := none
deriving DecidableEq, Repr

/-- A history record as consumed by the merge engine. -/
structure MHistoryEntry where
  id : JStr
  url : JStr
  title : JStr
  visitCount : Int
  lastVisitTime : Int
  mergedFrom : Option JStr := none
deriving DecidableEq, Repr

/-- A login record as consumed by the merge engine. -/
structure MLogin where
  id : JStr
  hostname : JStr
  username : JStr
  timeCreated : Int
  timeLastUsed : Int
  timesUsed : Int
  mergedFrom : Option JStr := none
deriving DecidableEq, Repr

/-- The slice of `RealExtractionResult` the merge engine reads (the other
arrays feed only the unimplemented data types, which never inspect them). -/
structure RealExtractionResult where
  bookmarks : List MBookmark := []
  history : List MHistoryEntry := []
  logins : List MLogin := []
deriving DecidableEq, Repr

/-- The slice of `MergeConfig` the merge engine reads. -/
structure MergeConfig where
  mergeTypes : List MergeDataType
  conflictResolution : ConflictResolution
  dryRun : Bool
deriving DecidableEq, Repr

/-- Per-type `{ merged, conflicts }` counters. -/
structure TypeCounts where
  merged : Int := 0
  conflicts : Int := 0
deriving DecidableEq, Repr

/-- The `details` object of `MergeResult`. -/
structure MergeDetails where
  bookmarks : TypeCounts := {}
  history : TypeCounts := {}
  logins : TypeCounts := {}
  cookies : TypeCounts := {}
  extensions : TypeCounts := {}
  formHistory : TypeCounts := {}
  permissions : TypeCounts := {}
  sessions : TypeCounts := {}
deriving DecidableEq, Repr

/-- `MergeResult` of enhancedMergeEngine.ts (`executionTime` is wall-clock
time and is not modelled). -/
structure MergeResult where
  success : Bool
  mergedItems : Int
  conflictsResolved : Int
  errors : List JStr
  details : MergeDetails
deriving DecidableEq, Repr

/-- `EnhancedMergeEngine.shouldReplaceBookmark` (lines 345-359). -/
def shouldReplaceBookmark (existing incoming : MBookmark) :
    ConflictResolution → Bool
  | .keep_newest => decide (existing.lastModified < incoming.lastModified)
  | .keep_oldest => decide (incoming.dateAdded < existing.dateAdded)
  | .manual => false
  | _ => false

/-- `EnhancedMergeEngine.shouldReplaceLogin` (lines 362-375). -/
def shouldReplaceLogin (existing incoming : MLogin) :
    ConflictResolution → Bool
  | .keep_newest => decide (existing.timeLastUsed < incoming.timeLastUsed)
  | .keep_oldest => decide (incoming.timeCreated < existing.timeCreated)
  | .manual => false
  | _ => false

/-- Replace the first element satisfying `p` by `f` of it; models
`array[array.indexOf(found)] = ...` after a successful `find` (the found
element is the first match, and `indexOf` locates exactly it). -/
def updateFirst (p : α → Bool) (f : α → α) : List α → List α
  | [] => []
  | a :: t => if p a then f a :: t else a :: updateFirst p f t

/-- The result of `sourceData.map.toString()` that line 193/238/282 compares
profile paths against: `targetData` is a plain object, so JS evaluates
`targetData.toString()` to the constant `"[object Object]"`; the intended
skip of the target profile therefore only fires for a profile literally at
that path. -/
def objectToString : JStr := "[object Object]".data

/-- State threaded through one per-type merge: the live target array and the
local `merged` / `conflicts` counters. -/
abbrev BState := List MBookmark × Int × Int

/-- The body of the inner bookmark loop (lines 197-220): find a target
bookmark with the same (raw) `url`; on a conflict, apply the strategy and
possibly replace in place; otherwise push a copy tagged with `mergedFrom`.
Mutations are skipped under `dryRun`. -/
def bookmarkStep (path : JStr) (config : MergeConfig) (st : BState)
    (bm : MBookmark) : BState :=
  match st with
  | (tgt, merged, conflicts) =>
    match tgt.find? (fun b => b.url == bm.url) with
    | some existing =>
      let conflicts := conflicts + 1
      if shouldReplaceBookmark existing bm config.conflictResolution then
        let tgt := if config.dryRun then tgt
          else updateFirst (fun b => b.url == bm.url)
            (fun _ => { bm with mergedFrom := some path }) tgt
        (tgt, merged + 1, conflicts)
      else (tgt, merged, conflicts)
    | none =>
      let tgt := if config.dryRun then tgt
        else tgt ++ [{ bm with mergedFrom := some path }]
      (tgt, merged + 1, conflicts)

/-- Iterating the target's own bookmark array while merging it into itself:
when the map entry is the target profile, `data.bookmarks` aliases the live
target array, so `for (const bookmark of data.bookmarks)` reads the evolving
array by index.  Every element finds at least itself in the array, so the
loop never appends and the initial length bounds the iteration. -/
def bookmarkSelfLoop (path : JStr) (config : MergeConfig) :
    Nat → Nat → BState → BState
  | 0, _, st => st
  | fuel + 1, i, st =>
    match st.1[i]? with
    | some b => bookmarkSelfLoop path config fuel (i + 1) (bookmarkStep path config st b)
    | none => st

/-- The outer source loop of `mergeBookmarks` (lines 192-221).  For the map
entry keyed by the target path, `data` is the same object as `targetData`
(`mergeProfiles` fetched `targetData` from this very map), which the model
renders by substituting the live target list. -/
def mergeBookmarksLoop (targetPath : JStr) (config : MergeConfig) :
    List (JStr × RealExtractionResult) → BState → BState
  | [], st => st
  | (path, data) :: rest, st =>
    let live := if path == targetPath then st.1 else data.bookmarks
    if path == objectToString || live.length == 0 then
      mergeBookmarksLoop targetPath config rest st
    else
      let st :=
        if path == targetPath then bookmarkSelfLoop path config st.1.length 0 st
        else data.bookmarks.foldl (bookmarkStep path config) st
      mergeBookmarksLoop targetPath config rest st

/-- `EnhancedMergeEngine.mergeBookmarks` (lines 183-225): returns the final
target bookmark array and the `{ merged, conflicts }` it stores in
`result.details.bookmarks`. -/
def mergeBookmarks (sourceData : List (JStr × RealExtractionResult))
    (targetPath : JStr) (tgt : List MBookmark) (config : MergeConfig) :
    List MBookmark × TypeCounts :=
  match mergeBookmarksLoop targetPath config sourceData (tgt, 0, 0) with
  | (t, m, c) => (t, ⟨m, c⟩)

/-- State for the history merge. -/
abbrev HState := List MHistoryEntry × Int × Int

/-- The body of the inner history loop (lines 242-264): a conflict always
combines — the existing entry's `visitCount` is increased by the incoming one
and `lastVisitTime` is advanced if the incoming one is later; no strategy is
consulted and the entry is never replaced.  A new URL is appended with
provenance. -/
def historyStep (path : JStr) (config : MergeConfig) (st : HState)
    (e : MHistoryEntry) : HState :=
  match st with
  | (tgt, merged, conflicts) =>
    match tgt.find? (fun h => h.url == e.url) with
    | some _ =>
      let tgt := if config.dryRun then tgt
        else updateFirst (fun h => h.url == e.url)
          (fun ex => { ex with
            visitCount := ex.visitCount + e.visitCount,
            lastVisitTime := if ex.lastVisitTime < e.lastVisitTime then e.lastVisitTime
              else ex.lastVisitTime }) tgt
      (tgt, merged + 1, conflicts + 1)
    | none =>
      let tgt := if config.dryRun then tgt
        else tgt ++ [{ e with mergedFrom := some path }]
      (tgt, merged + 1, conflicts)

/-- Self-merge iteration for history, as for bookmarks. -/
def historySelfLoop (path : JStr) (config : MergeConfig) :
    Nat → Nat → HState → HState
  | 0, _, st => st
  | fuel + 1, i, st =>
    match st.1[i]? with
    | some e => historySelfLoop path config fuel (i + 1) (historyStep path config st e)
    | none => st

/-- The outer source loop of `mergeHistory` (lines 237-265). -/
def mergeHistoryLoop (targetPath : JStr) (config : MergeConfig) :
    List (JStr × RealExtractionResult) → HState → HState
  | [], st => st
  | (path, data) :: rest, st =>
    let live := if path == targetPath then st.1 else data.history
    if path == objectToString || live.length == 0 then
      mergeHistoryLoop targetPath config rest st
    else
      let st :=
        if path == targetPath then historySelfLoop path config st.1.length 0 st
        else data.history.foldl (historyStep path config) st
      mergeHistoryLoop targetPath config rest st

/-- `EnhancedMergeEngine.mergeHistory` (lines 228-269). -/
def mergeHistory (sourceData : List (JStr × RealExtractionResult))
    (targetPath : JStr) (tgt : List MHistoryEntry) (config : MergeConfig) :
    List MHistoryEntry × TypeCounts :=
  match mergeHistoryLoop targetPath config sourceData (tgt, 0, 0) with
  | (t, m, c) => (t, ⟨m, c⟩)

/-- State for the login merge. -/
abbrev LState := List MLogin × Int × Int

/-- The body of the inner login loop (lines 286-310): duplicates are matched
by `hostname` and `username`. -/
def loginStep (path : JStr) (config : MergeConfig) (st : LState)
    (lg : MLogin) : LState :=
  match st with
  | (tgt, merged, conflicts) =>
    match tgt.find? (fun l => l.hostname == lg.hostname && l.username == lg.username) with
    | some existing =>
      let conflicts := conflicts + 1
      if shouldReplaceLogin existing lg config.conflictResolution then
        let tgt := if config.dryRun then tgt
          else updateFirst (fun l => l.hostname == lg.hostname && l.username == lg.username)
            (fun _ => { lg with mergedFrom := some path }) tgt
        (tgt, merged + 1, conflicts)
      else (tgt, merged, conflicts)
    | none =>
      let tgt := if config.dryRun then tgt
        else tgt ++ [{ lg with mergedFrom := some path }]
      (tgt, merged + 1, conflicts)

/-- Self-merge iteration for logins. -/
def loginSelfLoop (path : JStr) (config : MergeConfig) :
    Nat → Nat → LState → LState
  | 0, _, st => st
  | fuel + 1, i, st =>
    match st.1[i]? with
    | some l => loginSelfLoop path config fuel (i + 1) (loginStep path config st l)
    | none => st

/-- The outer source loop of `mergeLogins` (lines 281-311). -/
def mergeLoginsLoop (targetPath : JStr) (config : MergeConfig) :
    List (JStr × RealExtractionResult) → LState → LState
  | [], st => st
  | (path, data) :: rest, st =>
    let live := if path == targetPath then st.1 else data.logins
    if path == objectToString || live.length == 0 then
      mergeLoginsLoop targetPath config rest st
    else
      let st :=
        if path == targetPath then loginSelfLoop path config st.1.length 0 st
        else data.logins.foldl (loginStep path config) st
      mergeLoginsLoop targetPath config rest st

/-- `EnhancedMergeEngine.mergeLogins` (lines 272-315). -/
def mergeLogins (sourceData : List (JStr × RealExtractionResult))
    (targetPath : JStr) (tgt : List MLogin) (config : MergeConfig) :
    List MLogin × TypeCounts :=
  match mergeLoginsLoop targetPath config sourceData (tgt, 0, 0) with
  | (t, m, c) => (t, ⟨m, c⟩)

/-- `EnhancedMergeEngine.mergeSpecificDataType` (lines 138-180) for one
concrete type: thread the target data, overwrite the type's detail counters.
The unimplemented types store `{0, 0}`; `preferences` has no switch case and
only logs a warning; `all` cannot reach this switch (it is intercepted in
`mergeProfiles`) and its case likewise falls to the default. -/
def mergeOne (sourceData : List (JStr × RealExtractionResult)) (targetPath : JStr)
    (config : MergeConfig) (st : RealExtractionResult × MergeDetails) :
    MergeDataType → RealExtractionResult × MergeDetails
  | .bookmarks =>
    match mergeBookmarks sourceData targetPath st.1.bookmarks config with
    | (b, counts) => ({ st.1 with bookmarks := b }, { st.2 with bookmarks := counts })
  | .history =>
    match mergeHistory sourceData targetPath st.1.history config with
    | (h, counts) => ({ st.1 with history := h }, { st.2 with history := counts })
  | .passwords =>
    match mergeLogins sourceData targetPath st.1.logins config with
    | (l, counts) => ({ st.1 with logins := l }, { st.2 with logins := counts })
  | .cookies => (st.1, { st.2 with cookies := ⟨0, 0⟩ })
  | .extensions => (st.1, { st.2 with extensions := ⟨0, 0⟩ })
  | .form_history => (st.1, { st.2 with formHistory := ⟨0, 0⟩ })
  | .permissions => (st.1, { st.2 with permissions := ⟨0, 0⟩ })
  | .sessions => (st.1, { st.2 with sessions := ⟨0, 0⟩ })
  | _ => st

/-- The list iterated by `mergeAllDataTypes` (lines 121-130). -/
def allTypesList : List MergeDataType :=
  [.bookmarks, .history, .passwords, .cookies, .extensions, .form_history,
   .permissions, .sessions]

/-- The `for (const dataType of config.mergeTypes)` loop of `mergeProfiles`
(lines 85-94): an `ALL` entry merges every type and then breaks. -/
def processTypes (sourceData : List (JStr × RealExtractionResult)) (targetPath : JStr)
    (config : MergeConfig) :
    List MergeDataType → RealExtractionResult × MergeDetails →
    RealExtractionResult × MergeDetails
  | [], st => st
  | t :: rest, st =>
    if t = .all then
      allTypesList.foldl (mergeOne sourceData targetPath config) st
    else
      processTypes sourceData targetPath config rest
        (mergeOne sourceData targetPath config st t)

/-- `sourceData.get(path)` on the insertion-ordered map. -/
def mapGet (m : List (JStr × RealExtractionResult)) (k : JStr) :
    Option RealExtractionResult :=
  (m.find? (fun e => e.1 == k)).map (·.2)

/-- Sum of the eight per-type `merged` counters (`Object.values(...).reduce`). -/
def detailsMergedSum (d : MergeDetails) : Int :=
  d.bookmarks.merged + d.history.merged + d.logins.merged + d.cookies.merged +
  d.extensions.merged + d.formHistory.merged + d.permissions.merged + d.sessions.merged

/-- Sum of the eight per-type `conflicts` counters. -/
def detailsConflictsSum (d : MergeDetails) : Int :=
  d.bookmarks.conflicts + d.history.conflicts + d.logins.conflicts + d.cookies.conflicts +
  d.extensions.conflicts + d.formHistory.conflicts + d.permissions.conflicts +
  d.sessions.conflicts

/-- `EnhancedMergeEngine.mergeProfiles` (lines 47-110).  The only exception
that can escape to the outer `catch` is the missing-target throw of line 81
(each per-type merge catches its own errors, and the modelled merges are
total); the result pair also carries the final value of the target's data
object, which the source mutates in place.  On the missing-target path the
error is recorded and an all-zero result is returned rather than the
exception propagating to the caller. -/
def mergeProfiles (sourceData : List (JStr × RealExtractionResult))
    (targetProfilePath : JStr) (config : MergeConfig) :
    MergeResult × Option RealExtractionResult :=
  match mapGet sourceData targetProfilePath with
  | none =>
    ({ success := false, mergedItems := 0, conflictsResolved := 0,
       errors := ["Merge failed: Target profile data not found: ".data ++ targetProfilePath],
       details := {} }, none)
  | some targetData =>
    let td := processTypes sourceData targetProfilePath config config.mergeTypes
      (targetData, {})
    let errors : List JStr := []
    ({ success := errors.isEmpty,
       mergedItems := detailsMergedSum td.2,
       conflictsResolved := detailsConflictsSum td.2,
       errors := errors, details := td.2 }, some td.1)

end EnhancedMergeEngine

namespace UniversalDataNormalizer

/-- Raw Firefox bookmark row as fed to `normalizeFirefoxBookmarks` (fields may
be absent). -/
structure FirefoxRawBookmark where
  id : Option Int := none
  title : Option JStr := none
  url : Option JStr := none
  parent_folder : Option JStr := none
  dateAdded : Option Int := none
  lastModified : Option Int := none
  tags : Option JStr := none
  description : Option JStr := none
  favicon : Option JStr := none
  visit_count : Option Int := none
deriving DecidableEq, Repr

/-- Raw Chrome bookmark node as fed to `normalizeChromeBookmarks`.
`date_added`/`date_modified` are decimal strings of WebKit microseconds. -/
structure ChromeRawBookmark where
  id : Option JStr := none
  name : Option JStr := none
  url : Option JStr := none
  folder : Option JStr := none
  date_added : Option JStr := none
  date_modified : Option JStr := none
  meta_description : Option JStr := none
  meta_favicon : Option JStr := none
deriving DecidableEq, Repr

/-- Raw Firefox history row. -/
structure FirefoxRawHistory where
  id : Option Int := none
  url : Option JStr := none
  title : Option JStr := none
  visit_count : Option Int := none
  last_visit_date : Option Int := none
  first_visit_date : Option Int := none
  visit_duration : Option Int := none
  referrer : Option JStr := none
deriving DecidableEq, Repr

/-- Raw Chrome history row; `last_visit_time`/`first_visit_time` are WebKit
microseconds since 1601-01-01. -/
structure ChromeRawHistory where
  id : Option Int := none
  url : Option JStr := none
  title : Option JStr := none
  visit_count : Option Int := none
  last_visit_time : Option Int := none
  first_visit_time : Option Int := none
  visit_duration : Option Int := none
deriving DecidableEq, Repr

/-- Raw Chrome login row; `date_created`/`date_last_used` are WebKit
microseconds since 1601-01-01. -/
structure ChromeRawLogin where
  id : Option Int := none
  origin_url : Option JStr := none
  username_value : Option JStr := none
  password_value : Option JStr := none
  date_created : Option Int := none
  date_last_used : Option Int := none
  submit_element : Option JStr := none
  username_element : Option JStr := none
  password_element : Option JStr := none
  times_used : Option Int := none
deriving DecidableEq, Repr

/-- `parseFirefoxFolderPath` / `parseChromeFolderPath` (lines 723-729):
split on `/` and drop empty segments. -/
def parseFolderPath (folder : JStr) : List JStr :=
  (splitOnChar '/' folder).filter (fun f => f.length > 0)

/-- `extractDomain` (lines 731-737): the URL's hostname, or the raw string
when parsing fails. -/
def extractDomain (url : JStr) : JStr :=
  match parseUrl url with
  | some o => o.hostname
  | none => url

/-- Query-parameter lookup, modelling `urlObj.searchParams.get(name)` without
percent-decoding (no claim depends on decoding): first `k=v` pair of the
query whose key is `name`. -/
def searchParamGet (url : JStr) (name : JStr) : Option JStr :=
  let beforeFrag := url.takeWhile (· != '#')
  let query := (beforeFrag.dropWhile (· != '?')).drop 1
  (splitOnChar '&' query).findSome? (fun kv =>
    let k := kv.takeWhile (· != '=')
    let v := (kv.dropWhile (· != '=')).drop 1
    if k = name then some v else none)

/-- JS `a || b` over option strings where `null`/`undefined`/`""` are falsy. -/
def orStrOpt (a b : Option JStr) : Option JStr :=
  match a with
  | some s => if s.isEmpty then b else some s
  | none => b

/-- `extractSearchTerm` (lines 739-746): `searchParams.get('q') ||
searchParams.get('search') || undefined` inside a try/catch on `new URL`. -/
def extractSearchTerm (url : JStr) : Option JStr :=
  match parseUrl url with
  | some _ => orStrOpt (searchParamGet url "q".data) (searchParamGet url "search".data)
  | none => none

/-- JS `v ? f v : undefined` for an optional number (`0` is falsy). -/
def truthyInt (v : Option Int) : Option Int :=
  match v with
  | some n => if n = 0 then none else some n
  | none => none

/-- `bookmark.tags ? bookmark.tags.split(',').map(t => t.trim()) : []`. -/
def parseTags (tags : Option JStr) : List JStr :=
  match tags with
  | some t => if t.isEmpty then [] else (splitOnChar ',' t).map jsTrim
  | none => []

/-- `UniversalDataNormalizer.normalizeFirefoxBookmarks` (lines 541-558).
`now` is the value of `Date.now()` during the call. -/
def normalizeFirefoxBookmarks (firefoxBookmarks : List FirefoxRawBookmark)
    (profilePath : JStr) (now : Int) : List UniversalBookmark :=
  firefoxBookmarks.enum.map (fun p =>
    match p with
    | (index, b) =>
      { id := "ff_bm_".data ++ intToJStr (orInt b.id index),
        title := orStr b.title "Untitled".data,
        url := orStr b.url [],
        folder := parseFolderPath (orStr b.parent_folder "Bookmarks".data),
        dateAdded := some (orInt b.dateAdded now),
        dateModified := truthyInt b.lastModified,
        sourceProfile := profilePath,
        sourceBrowser := .firefox,
        tags := parseTags b.tags,
        description := b.description,
        favicon := b.favicon,
        visitCount := some (orInt b.visit_count 0) })

/-- The Chrome/WebKit timestamp scaling `new Date(parseInt(raw) / 1000)`
used by `normalizeChromeBookmarks`, `normalizeChromeHistory` and
`normalizeChromeLogins`: microseconds are divided by 1000 (the `Date`
constructor truncates toward zero) with NO epoch adjustment; a missing or
non-numeric raw value gives an invalid date (`none`). -/
def chromeTsToMs (raw : Option JStr) : Option Int :=
  (parseIntJS (raw.getD [])).map (fun n => Int.tdiv n 1000)

/-- `chromeTsToMs` for a numeric column (`parseInt` of a number formats and
reparses it, the identity on integers). -/
def chromeTsNumToMs (raw : Option Int) : Option Int :=
  raw.map (fun n => Int.tdiv n 1000)

/-- `UniversalDataNormalizer.normalizeChromeBookmarks` (lines 561-578).
The `|| new Date()` of line 569 can never fire: a `Date` object is always
truthy, so an invalid date is carried through rather than replaced by the
current time. -/
def normalizeChromeBookmarks (chromeBookmarks : List ChromeRawBookmark)
    (profilePath : JStr) (browserType : BrowserType) : List UniversalBookmark :=
  chromeBookmarks.enum.map (fun p =>
    match p with
    | (index, b) =>
      { id := "chr_bm_".data ++ (orStr b.id (natToJStr index)),
        title := orStr b.name "Untitled".data,
        url := orStr b.url [],
        folder := parseFolderPath (orStr b.folder "Bookmarks Bar".data),
        dateAdded := chromeTsToMs b.date_added,
        dateModified := match b.date_modified with
          | some s => if s.isEmpty then none else chromeTsToMs (some s)
          | none => none,
        sourceProfile := profilePath,
        sourceBrowser := browserType,
        tags := [],
        description := b.meta_description,
        favicon := b.meta_favicon,
        visitCount := some 0 })

/-- `UniversalDataNormalizer.normalizeFirefoxHistory` (lines 581-597). -/
def normalizeFirefoxHistory (firefoxHistory : List FirefoxRawHistory)
    (profilePath : JStr) (now : Int) : List UniversalHistoryEntry :=
  firefoxHistory.enum.map (fun p =>
    match p with
    | (index, e) =>
      { id := "ff_hist_".data ++ intToJStr (orInt e.id index),
        url := orStr e.url [],
        title := orStr e.title "Untitled".data,
        visitCount := orInt e.visit_count 1,
        lastVisit := some (orInt e.last_visit_date now),
        firstVisit := some (orInt e.first_visit_date (orInt e.last_visit_date now)),
        sourceProfile := profilePath,
        sourceBrowser := .firefox,
        duration := e.visit_duration,
        referrer := e.referrer,
        searchTerm := extractSearchTerm (orStr e.url []) })

/-- `UniversalDataNormalizer.normalizeChromeHistory` (lines 600-615): the raw
`last_visit_time`/`first_visit_time` microseconds are only divided by 1000 —
the 11,644,473,600,000,000 µs epoch offset is never subtracted — and the
`|| new Date()` fallbacks of lines 608-609 can never fire (a `Date` object is
always truthy). -/
def normalizeChromeHistory (chromeHistory : List ChromeRawHistory)
    (profilePath : JStr) (browserType : BrowserType) : List UniversalHistoryEntry :=
  chromeHistory.enum.map (fun p =>
    match p with
    | (index, e) =>
      { id := "chr_hist_".data ++ intToJStr (orInt e.id index),
        url := orStr e.url [],
        title := orStr e.title "Untitled".data,
        visitCount := orInt e.visit_count 1,
        lastVisit := chromeTsNumToMs e.last_visit_time,
        firstVisit := chromeTsNumToMs e.first_visit_time,
        sourceProfile := profilePath,
        sourceBrowser := browserType,
        duration := e.visit_duration,
        referrer := none,
        searchTerm := extractSearchTerm (orStr e.url []) })

/-- `UniversalDataNormalizer.normalizeChromeLogins` (lines 640-658): the
WebKit-microsecond `date_created`/`date_last_used` are likewise only divided
by 1000, without the epoch subtraction. -/
def normalizeChromeLogins (chromeLogins : List ChromeRawLogin)
    (profilePath : JStr) (browserType : BrowserType) : List UniversalLogin :=
  chromeLogins.enum.map (fun p =>
    match p with
    | (index, lg) =>
      { id := "chr_login_".data ++ intToJStr (orInt lg.id index),
        url := orStr lg.origin_url [],
        domain := extractDomain (orStr lg.origin_url []),
        username := orStr lg.username_value [],
        passwordHash := orStr lg.password_value "[ENCRYPTED]".data,
        dateCreated := chromeTsNumToMs lg.date_created,
        dateLastUsed := chromeTsNumToMs lg.date_last_used,
        datePasswordChanged := none,
        sourceProfile := profilePath,
        sourceBrowser := browserType,
        formSubmitUrl := lg.submit_element,
        usernameField := lg.username_element,
        passwordField := lg.password_element,
        timesUsed := orInt lg.times_used 1 })

end UniversalDataNormalizer

namespace RealDataExtractor

/-- The WebKit/Chrome epoch offset in microseconds: 1601-01-01 to 1970-01-01. -/
def chromeEpochOffsetMicros : Int := 11644473600000000

/-- The Chrome history timestamp conversion of `RealDataExtractor` (part_000
line 237, comment "Chrome epoch adjustment"):
`new Date((entry.last_visit_time - 11644473600000000) / 1000)`. -/
def chromeHistoryLastVisitMs (raw : Int) : Int :=
  Int.tdiv (raw - chromeEpochOffsetMicros) 1000

/-- The Chrome login timestamp conversion of `RealDataExtractor` (part_000
lines 261-262): `new Date((raw - 11644473600000000) / 1000)` for
`date_created` and `date_last_used`. -/
def chromeLoginTimeMs (raw : Int) : Int :=
  Int.tdiv (raw - chromeEpochOffsetMicros) 1000

/-- The Chrome bookmark timestamp conversion of `RealDataExtractor` (part_000
lines 215-216): `new Date(parseInt(bookmark.date_added) / 1000)` — unlike the
history and login conversions right next to it, NO epoch offset is
subtracted. -/
def chromeBookmarkDateAddedMs (raw : Option JStr) : Option Int :=
  (parseIntJS (raw.getD [])).map (fun n => Int.tdiv n 1000)

end RealDataExtractor

namespace SQLiteCorruptionHandler

/-- The corruption classes of `CorruptionCheckResult.errorType`. -/
inductive ErrorType
  | noError | header | page | indexCorruption | schema | unknown
deriving DecidableEq, Repr

/-- `CorruptionCheckResult` of the SQLite corruption handler. -/
structure CorruptionCheckResult where
  isCorrupted : Bool
  errorType : ErrorType
  errorMessage : JStr
  recoverable : Bool
deriving DecidableEq, Repr

/-- `RecoveryResult.method` values. -/
inductive RecoveryMethod
  | noMethod | dump | recover | manual_export
deriving DecidableEq, Repr

/-- `RecoveryResult` of the SQLite corruption handler (`outputSize` is a
simulated number). -/
structure RecoveryResult where
  success : Bool
  method : RecoveryMethod
  recoveredTables : List JStr
  lostData : List JStr
  errorLog : List JStr
  outputSize : Int
deriving DecidableEq, Repr

/-- The table list of `attemptDumpRecovery` (part_003 line 890). -/
def dumpAllTables : List JStr :=
  ["moz_bookmarks".data, "moz_places".data, "moz_historyvisits".data, "moz_logins".data]

/-- The table list of `attemptRecoverCommand` (part_003 line 941). -/
def recoverAllTables : List JStr :=
  ["moz_bookmarks".data, "moz_places".data, "moz_historyvisits".data,
   "moz_logins".data, "moz_cookies".data]

/-- `SQLiteCorruptionHandler.attemptDumpRecovery` (lines 867-916).  The
simulation draws a random subset of tables and a random output size; the model
takes those draws as the oracle inputs `keep` (the per-table coin of line 891)
and `size` (line 898).  `success` is set exactly when at least one table was
recovered; on failure `lostData` is left at its initialiser `[]` and an error
is logged. -/
def attemptDumpRecovery (keep : JStr → Bool) (size : Int) : RecoveryResult :=
  let recovered := dumpAllTables.filter keep
  let lost := dumpAllTables.filter (fun t => !recovered.contains t)
  if recovered.length > 0 then
    { success := true, method := .dump, recoveredTables := recovered,
      lostData := lost, errorLog := [], outputSize := size }
  else
    { success := false, method := .dump, recoveredTables := [], lostData := [],
      errorLog := ["No tables could be recovered from database dump".data],
      outputSize := 0 }

/-- `SQLiteCorruptionHandler.attemptRecoverCommand` (lines 919-968), with the
random draws as oracle inputs as for the dump. -/
def attemptRecoverCommand (keep : JStr → Bool) (size : Int) : RecoveryResult :=
  let recovered := recoverAllTables.filter keep
  let lost := recoverAllTables.filter (fun t => !recovered.contains t)
  if recovered.length > 0 then
    { success := true, method := .recover, recoveredTables := recovered,
      lostData := lost, errorLog := [], outputSize := size }
  else
    { success := false, method := .recover, recoveredTables := [], lostData := [],
      errorLog := ["Recovery command found no salvageable data".data],
      outputSize := 0 }

/-- `SQLiteCorruptionHandler.recoverDatabase` (lines 971-1035).  The integrity
verdict (itself produced by the simulated `checkDatabaseIntegrity`) and the
two recovery oracles are inputs; the control flow is the source's: healthy →
no recovery; unrecoverable → failure naming the whole database; otherwise try
the conservative `.dump` first and return it whenever it recovered at least
one table, only then escalate to `.recover`, and fail with the whole database
listed as lost when both came back empty. -/
def recoverDatabase (integrity : CorruptionCheckResult)
    (dumpKeep : JStr → Bool) (dumpSize : Int)
    (recKeep : JStr → Bool) (recSize : Int) : RecoveryResult :=
  if !integrity.isCorrupted then
    { success := true, method := .noMethod, recoveredTables := [], lostData := [],
      errorLog := [], outputSize := 0 }
  else if !integrity.recoverable then
    { success := false, method := .noMethod, recoveredTables := [],
      lostData := ["entire_database".data], errorLog := [integrity.errorMessage],
      outputSize := 0 }
  else
    let dumpResult := attemptDumpRecovery dumpKeep dumpSize
    if dumpResult.success && dumpResult.recoveredTables.length > 0 then dumpResult
    else
      let recoverResult := attemptRecoverCommand recKeep recSize
      if recoverResult.success && recoverResult.recoveredTables.length > 0 then recoverResult
      else
        { success := false, method := .manual_export, recoveredTables := [],
          lostData := ["entire_database".data],
          errorLog := dumpResult.errorLog ++ recoverResult.errorLog ++
            ["Manual recovery may be possible with specialized tools".data],
          outputSize := 0 }

end SQLiteCorruptionHandler

/-! ## Concrete inputs used by the claim theorems -/

open DeduplicationEngine EnhancedMergeEngine UniversalDataNormalizer
  SQLiteCorruptionHandler RealDataExtractor

/-- C1 input: a target bookmark whose URL lacks the trailing slash of the
incoming one; both normalize to the same identity key. -/
def c1TargetBm : MBookmark :=
  { id := "1".data, title := "Example".data, url := "https://example.com".data,
    dateAdded := 10, lastModified := 20, visitCount := 3 }

/-- C1 input: the incoming bookmark, slash-terminated. -/
def c1SourceBm : MBookmark :=
  { id := "2".data, title := "Example".data, url := "https://example.com/".data,
    dateAdded := 11, lastModified := 21, visitCount := 4 }

/-- C1 input: source map with the target profile first. -/
def c1Map : List (JStr × RealExtractionResult) :=
  [("t".data, { bookmarks := [c1TargetBm] }), ("s".data, { bookmarks := [c1SourceBm] })]

/-- C1 input: a real (non-dry) bookmark merge. -/
def c1Config : MergeConfig :=
  { mergeTypes := [.bookmarks], conflictResolution := .keep_newest, dryRun := false }

/-- C3 input: one source bookmark. -/
def c3BmX : MBookmark :=
  { id := "x".data, title := "X".data, url := "https://x.com".data,
    dateAdded := 1, lastModified := 5, visitCount := 0 }

/-- C3 input: a second source bookmark with the same URL. -/
def c3BmY : MBookmark := { c3BmX with id := "y".data }

/-- C3 input: empty target, one source carrying two same-URL bookmarks. -/
def c3Map : List (JStr × RealExtractionResult) :=
  [("t".data, {}), ("s".data, { bookmarks := [c3BmX, c3BmY] })]

/-- C3 input: the non-dry configuration. -/
def c3Real : MergeConfig :=
  { mergeTypes := [.bookmarks], conflictResolution := .keep_newest, dryRun := false }

/-- C3 input: the same configuration with `dryRun` on. -/
def c3Dry : MergeConfig := { c3Real with dryRun := true }

/-- C4 counterexample input: existing target history entry (slash URL). -/
def c4Existing : MHistoryEntry :=
  { id := "h1".data, url := "https://a.com/".data, title := "A".data,
    visitCount := 3, lastVisitTime := 100 }

/-- C4 counterexample input: incoming entry, same identity key, different raw URL. -/
def c4Incoming : MHistoryEntry :=
  { id := "h2".data, url := "https://a.com".data, title := "A".data,
    visitCount := 2, lastVisitTime := 200 }

/-- C4 counterexample input: map with the target first. -/
def c4Map : List (JStr × RealExtractionResult) :=
  [("t".data, { history := [c4Existing] }), ("s".data, { history := [c4Incoming] })]

/-- C4 counterexample input: a real history merge. -/
def c4Config : MergeConfig :=
  { mergeTypes := [.history], conflictResolution := .keep_newest, dryRun := false }

/-- C4 witness input: target entry for the amended step theorem. -/
def c4wEx : MHistoryEntry :=
  { id := "w1".data, url := "https://w.com".data, title := "W".data,
    visitCount := 7, lastVisitTime := 50 }

/-- C4 witness input: incoming entry with the identical raw URL. -/
def c4wE : MHistoryEntry :=
  { id := "w2".data, url := "https://w.com".data, title := "W2".data,
    visitCount := 5, lastVisitTime := 80 }

/-- C4 witness input: a real merge configuration. -/
def c4wConfig : MergeConfig :=
  { mergeTypes := [.history], conflictResolution := .manual, dryRun := false }

/-- C2 input: a WebKit timestamp (microseconds since 1601-01-01) for
2022-08-10 08:00:00 UTC. -/
def c2Raw : Int := 13304592000000000

/-- C2 input: the same timestamp as the decimal string stored in a Chrome
`Bookmarks` file. -/
def c2RawStr : JStr := "13304592000000000".data

/-- C6 input: Scenario A bookmark with the trailing slash. -/
def c6Bm1 : UniversalBookmark :=
  { id := "b1".data, title := "Example".data, url := "https://example.com/".data,
    folder := [], dateAdded := some 100, dateModified := none,
    sourceProfile := "p1".data, sourceBrowser := .firefox, tags := [],
    description := none, favicon := none, visitCount := some 0 }

/-- C6 input: Scenario A bookmark without the trailing slash. -/
def c6Bm2 : UniversalBookmark :=
  { c6Bm1 with
    id := "b2".data
    title := "Example Site".data
    url := "https://example.com".data
    dateAdded := some 200 }

/-- C6 input: the design-default thresholds 0.8 / 0.7. -/
def c6Config : DeduplicationConfig :=
  { bookmarkStrategy := "keep_newest".data, historyStrategy := "merge_visits".data,
    loginStrategy := "keep_newest".data, urlSimilarityThreshold := 8 / 10,
    titleSimilarityThreshold := 7 / 10, autoApproveHighConfidence := true,
    previewAllChanges := true }

/-- C9 counterexample input: a Firefox history row with no `visit_count`. -/
def c9HistRow : FirefoxRawHistory :=
  { url := some "https://m.com".data, title := some "M".data,
    last_visit_date := some 1000 }

/-- C7 witness input: a corrupted-but-recoverable integrity verdict. -/
def c7Integrity : CorruptionCheckResult :=
  { isCorrupted := true, errorType := .header,
    errorMessage := "SQLite header is corrupted or invalid".data, recoverable := true }

/-- C7 witness input: an unrecoverable integrity verdict (Scenario D). -/
def c7Unrecoverable : CorruptionCheckResult :=
  { isCorrupted := true, errorType := .header,
    errorMessage := "Database file is empty".data, recoverable := false }

/-- C10 witness input: two history entries sharing a normalized URL. -/
def c10Hist1 : UniversalHistoryEntry :=
  { id := "h1".data, url := "https://d.com/".data, title := "D".data,
    visitCount := 1, lastVisit := some 5, firstVisit := some 1,
    sourceProfile := "p".data, sourceBrowser := .firefox,
    duration := none, referrer := none, searchTerm := none }

/-- C10 witness input: the second entry of the duplicate pair. -/
def c10Hist2 : UniversalHistoryEntry :=
  { c10Hist1 with id := "h2".data, url := "https://d.com".data, visitCount := 2 }

/-! ## Helper lemmas -/

/-- Folding `s + f x - 1` over a list sums the shifted mapped values. -/
theorem foldl_add_sub_map_sum {α : Type} (f : α → Int) :
    ∀ (l : List α) (a : Int),
      l.foldl (fun s x => s + f x - 1) a = a + (l.map (fun x => f x - 1)).sum
  | [], a => by simp
  | x :: t, a => by
    simp only [List.foldl_cons, List.map_cons, List.sum_cons]
    rw [foldl_add_sub_map_sum f t (a + f x - 1)]
    ring

/-- `updateFirst` preserves the length. -/
theorem updateFirst_length {α : Type} (p : α → Bool) (f : α → α) :
    ∀ l : List α, (updateFirst p f l).length = l.length
  | [] => rfl
  | a :: t => by
    by_cases h : p a
    · simp [updateFirst, h]
    · simp [updateFirst, h, updateFirst_length p f t]

/-- After `updateFirst`, searching again finds the transformed element,
provided the transform still satisfies the predicate. -/
theorem find?_updateFirst {α : Type} (p : α → Bool) (f : α → α) :
    ∀ (l : List α) (a : α), l.find? p = some a → p (f a) = true →
      (updateFirst p f l).find? p = some (f a)
  | [], a, h, _ => by simp at h
  | x :: t, a, h, hf => by
    by_cases hx : p x
    · rw [List.find?_cons_of_pos _ hx] at h
      injection h with h
      subst h
      simp [updateFirst, hx, List.find?_cons_of_pos _ hf]
    · rw [List.find?_cons_of_neg _ hx] at h
      simp [updateFirst, hx, List.find?_cons_of_neg _ hx,
        find?_updateFirst p f t a h hf]

/-- The JS `if (a < b) b else a` update equals `max`. -/
theorem ite_lt_eq_max (a b : Int) : (if a < b then b else a) = max a b := by
  rcases le_or_lt b a with h | h
  · rw [if_neg (not_lt.mpr h), max_eq_left h]
  · rw [if_pos h, max_eq_right h.le]

/-! ## Claim theorems -/

/-- C10: for every dataset and configuration, `analyzeDataset` returns
`estimatedReduction` equal to `potentialMerges`, and both equal the sum over
all returned duplicate groups of (number of group members minus 1). -/
theorem C10_estimated_reduction_eq_potential_merges
    (dataset : NormalizedDataSet) (cfg : DeduplicationConfig) :
    (analyzeDataset dataset cfg).estimatedReduction =
      (analyzeDataset dataset cfg).potentialMerges ∧
    (analyzeDataset dataset cfg).potentialMerges =
      ((analyzeDataset dataset cfg).duplicateGroups.map
        (fun g => (g.items.length : Int) - 1)).sum := by
  refine ⟨rfl, ?_⟩
  simp only [analyzeDataset]
  have hh := foldl_add_sub_map_sum (fun g : DuplicateGroup => (g.items.length : Int))
    (findBookmarkDuplicates dataset.bookmarks cfg ++
     findHistoryDuplicates dataset.history cfg ++
     findLoginDuplicates dataset.logins cfg) 0
  simpa using hh

/-- C10 witness: a concrete dataset with one duplicate pair evaluates the
theorem's equalities at `estimatedReduction = potentialMerges = 1`. -/
theorem C10_estimated_reduction_eq_potential_merges_witness :
    (analyzeDataset ⟨[], [c10Hist1, c10Hist2], []⟩ c6Config).estimatedReduction =
      (analyzeDataset ⟨[], [c10Hist1, c10Hist2], []⟩ c6Config).potentialMerges ∧
    (analyzeDataset ⟨[], [c10Hist1, c10Hist2], []⟩ c6Config).potentialMerges =
      ((analyzeDataset ⟨[], [c10Hist1, c10Hist2], []⟩ c6Config).duplicateGroups.map
        (fun g => (g.items.length : Int) - 1)).sum :=
  C10_estimated_reduction_eq_potential_merges ⟨[], [c10Hist1, c10Hist2], []⟩ c6Config

/-- C8: every `mergeProfiles` result has `success` exactly when the error
list is empty, and `mergedItems` / `conflictsResolved` equal to the sums of
the per-type merged and conflict counters; when the target profile's data is
absent from the source map, the merge returns (rather than throws) a failed
result with an error recorded and every per-type counter zero. -/
theorem C8_merge_result_aggregates
    (sourceData : List (JStr × RealExtractionResult)) (targetPath : JStr)
    (config : MergeConfig) :
    ((mergeProfiles sourceData targetPath config).1.success =
      (mergeProfiles sourceData targetPath config).1.errors.isEmpty) ∧
    ((mergeProfiles sourceData targetPath config).1.mergedItems =
      detailsMergedSum (mergeProfiles sourceData targetPath config).1.details) ∧
    ((mergeProfiles sourceData targetPath config).1.conflictsResolved =
      detailsConflictsSum (mergeProfiles sourceData targetPath config).1.details) ∧
    (mapGet sourceData targetPath = none →
      (mergeProfiles sourceData targetPath config).1.success = false ∧
      (mergeProfiles sourceData targetPath config).1.errors ≠ [] ∧
      (mergeProfiles sourceData targetPath config).1.details = {} ∧
      (mergeProfiles sourceData targetPath config).1.mergedItems = 0 ∧
      (mergeProfiles sourceData targetPath config).1.conflictsResolved = 0) := by
  cases h : mapGet sourceData targetPath with
  | none =>
    simp [mergeProfiles, h, detailsMergedSum, detailsConflictsSum]
  | some t =>
    exact ⟨by simp [mergeProfiles, h], by simp [mergeProfiles, h],
      by simp [mergeProfiles, h], fun hc => Option.noConfusion hc⟩

/-- C8 witness: on an empty source map the target lookup fails and the
theorem yields the aborted, error-carrying, all-zero result. -/
theorem C8_merge_result_aggregates_witness :
    (mergeProfiles [] "t".data c1Config).1.success = false ∧
    (mergeProfiles [] "t".data c1Config).1.errors ≠ [] ∧
    (mergeProfiles [] "t".data c1Config).1.details = {} ∧
    (mergeProfiles [] "t".data c1Config).1.mergedItems = 0 ∧
    (mergeProfiles [] "t".data c1Config).1.conflictsResolved = 0 :=
  (C8_merge_result_aggregates [] "t".data c1Config).2.2.2 rfl

/-- C1: the claimed invariant — no two records of a completed (non-dry-run)
merge's target share an identity key — fails on the code: `mergeBookmarks`
deduplicates by raw `url` equality, so the incoming `https://example.com/`
is appended next to the target's `https://example.com` although both have
the same identity key (normalized URL); the spec itself flags this in §9. -/
theorem C1_merge_leaves_duplicate_identity_keys :
    (mergeProfiles c1Map "t".data c1Config).2 =
      some { bookmarks := [c1TargetBm, { c1SourceBm with mergedFrom := some "s".data }] } ∧
    normalizeUrl c1TargetBm.url = normalizeUrl c1SourceBm.url ∧
    c1TargetBm.url ≠ c1SourceBm.url := by
  refine ⟨by decide, by decide, by decide⟩

/-- C2: the Universal-Schema normalizer converts every Chrome/WebKit
timestamp by a bare division by 1000, never subtracting the
11,644,473,600,000,000 µs epoch offset the claim requires, while the
extractor's own history and login conversions (with the "Chrome epoch
adjustment" comment) do subtract it — and the extractor's bookmark
conversion also omits it. -/
theorem C2_chrome_epoch_offset_not_subtracted_in_normalizer :
    (normalizeChromeHistory [{ last_visit_time := some c2Raw }] "p".data .chrome).map
        (fun e => e.lastVisit) = [some (Int.tdiv c2Raw 1000)] ∧
    (normalizeChromeBookmarks [{ date_added := some c2RawStr }] "p".data .chrome).map
        (fun b => b.dateAdded) = [some (Int.tdiv c2Raw 1000)] ∧
    (normalizeChromeLogins [{ date_created := some c2Raw, date_last_used := some c2Raw }]
        "p".data .chrome).map (fun l => (l.dateCreated, l.dateLastUsed)) =
      [(some (Int.tdiv c2Raw 1000), some (Int.tdiv c2Raw 1000))] ∧
    chromeBookmarkDateAddedMs (some c2RawStr) = some (Int.tdiv c2Raw 1000) ∧
    chromeHistoryLastVisitMs c2Raw = Int.tdiv (c2Raw - chromeEpochOffsetMicros) 1000 ∧
    chromeLoginTimeMs c2Raw = Int.tdiv (c2Raw - chromeEpochOffsetMicros) 1000 ∧
    Int.tdiv c2Raw 1000 ≠ Int.tdiv (c2Raw - chromeEpochOffsetMicros) 1000 := by
  refine ⟨by decide, by decide, by decide, by decide, by decide, by decide, by decide⟩

/-- C3: dry-run and real runs do not report the same counts.  With an empty
target and one source holding two bookmarks with the same URL, the real run
reports 1 merged / 1 conflict (the first push makes the second a conflict)
while the dry run reports 2 merged / 0 conflicts (nothing was pushed, so the
second lookup also misses); the frame half of the claim — the dry run leaves
the target unchanged — does hold on this input. -/
theorem C3_dry_run_counts_differ_from_real_run :
    (mergeProfiles c3Map "t".data c3Dry).1.details.bookmarks = ⟨2, 0⟩ ∧
    (mergeProfiles c3Map "t".data c3Real).1.details.bookmarks = ⟨1, 1⟩ ∧
    (⟨2, 0⟩ : TypeCounts) ≠ ⟨1, 1⟩ ∧
    (mergeProfiles c3Map "t".data c3Dry).2 = some {} := by
  refine ⟨by decide, by decide, by decide, by decide⟩

/-- C9 counterexample: a Firefox history row without a `visit_count`
normalizes to `visitCount = 1`, not `0` — `entry.visit_count || 1` defaults
history visit counts to 1. -/
theorem C9_missing_history_visit_count_defaults_to_one :
    (normalizeFirefoxHistory [c9HistRow] "p".data 0).map (fun e => e.visitCount) = [1] ∧
    c9HistRow.visit_count = none ∧ (1 : Int) ≠ 0 := by
  refine ⟨by decide, by decide, by decide⟩

/-- C9 (amended): a missing title normalizes to "Untitled" in all four
bookmark/history normalizers, a missing visit count normalizes to 0 for
bookmarks (Firefox explicitly, Chrome always stores 0) and to 1 for history
entries (both families). -/
theorem C9_missing_field_defaults
    (fb : FirefoxRawBookmark) (cb : ChromeRawBookmark)
    (fh : FirefoxRawHistory) (ch : ChromeRawHistory)
    (pp : JStr) (now : Int) (bt : BrowserType)
    (hfb1 : fb.title = none) (hfb2 : fb.visit_count = none)
    (hcb : cb.name = none)
    (hfh1 : fh.title = none) (hfh2 : fh.visit_count = none)
    (hch1 : ch.title = none) (hch2 : ch.visit_count = none) :
    (normalizeFirefoxBookmarks [fb] pp now).map (fun u => (u.title, u.visitCount)) =
      [("Untitled".data, some 0)] ∧
    (normalizeChromeBookmarks [cb] pp bt).map (fun u => (u.title, u.visitCount)) =
      [("Untitled".data, some 0)] ∧
    (normalizeFirefoxHistory [fh] pp now).map (fun e => (e.title, e.visitCount)) =
      [("Untitled".data, 1)] ∧
    (normalizeChromeHistory [ch] pp bt).map (fun e => (e.title, e.visitCount)) =
      [("Untitled".data, 1)] := by
  refine ⟨?_, ?_, ?_, ?_⟩
  · simp [normalizeFirefoxBookmarks, List.enum, orStr, orInt, hfb1, hfb2]
  · simp [normalizeChromeBookmarks, List.enum, orStr, hcb]
  · simp [normalizeFirefoxHistory, List.enum, orStr, orInt, hfh1, hfh2]
  · simp [normalizeChromeHistory, List.enum, orStr, orInt, hch1, hch2]

/-- C9 witness: the amended defaults evaluated on concrete all-missing rows. -/
theorem C9_missing_field_defaults_witness :
    (normalizeFirefoxBookmarks [{}] "p".data 7).map (fun u => (u.title, u.visitCount)) =
      [("Untitled".data, some 0)] ∧
    (normalizeChromeBookmarks [{}] "p".data .chrome).map (fun u => (u.title, u.visitCount)) =
      [("Untitled".data, some 0)] ∧
    (normalizeFirefoxHistory [{}] "p".data 7).map (fun e => (e.title, e.visitCount)) =
      [("Untitled".data, 1)] ∧
    (normalizeChromeHistory [{}] "p".data .chrome).map (fun e => (e.title, e.visitCount)) =
      [("Untitled".data, 1)] :=
  C9_missing_field_defaults {} {} {} {} "p".data 7 .chrome
    rfl rfl rfl rfl rfl rfl rfl

/-- C4 counterexample: the claim keys conflicts by identity key (normalized
URL), but the code matches raw URLs.  An incoming entry whose URL differs
from the existing target entry's only by a trailing slash shares the identity
key, yet is appended as a new row instead of being combined, and the existing
entry's visit count does not become the sum of the two: the merged target
holds two rows for one identity key.  (The existing entry's count doubles,
3 → 6, because the map iteration also runs the target's own data against
itself — the intended self-skip compares the path against
`"[object Object]"`.) -/
theorem C4_history_identity_key_conflict_not_combined :
    (mergeProfiles c4Map "t".data c4Config).2 =
      some { history := [{ c4Existing with visitCount := 6 },
                         { c4Incoming with mergedFrom := some "s".data }] } ∧
    normalizeUrl c4Existing.url = normalizeUrl c4Incoming.url ∧
    c4Existing.url ≠ c4Incoming.url := by
  refine ⟨by decide, by decide, by decide⟩

/-- C4 (amended): whenever an incoming history entry's RAW url equals an
existing target entry's url and the merge is not a dry run, that conflict
step counts one merged item and one conflict, keeps the target length
unchanged, and turns the first matching entry into the existing entry with
`visitCount` the sum of the two counts and `lastVisitTime` the maximum of the
two timestamps — all other fields of the existing entry survive (no wholesale
replacement) and the step does not depend on the conflict-resolution
strategy. -/
theorem C4_history_conflict_sums_and_maxes
    (path : JStr) (config : MergeConfig) (tgt : List MHistoryEntry)
    (m c : Int) (e ex : MHistoryEntry)
    (hdry : config.dryRun = false)
    (hfind : tgt.find? (fun h => h.url == e.url) = some ex) :
    (historyStep path config (tgt, m, c) e).2.1 = m + 1 ∧
    (historyStep path config (tgt, m, c) e).2.2 = c + 1 ∧
    (historyStep path config (tgt, m, c) e).1.length = tgt.length ∧
    (historyStep path config (tgt, m, c) e).1.find? (fun h => h.url == e.url) =
      some { ex with
             visitCount := ex.visitCount + e.visitCount
             lastVisitTime := max ex.lastVisitTime e.lastVisitTime } ∧
    (∀ s : ConflictResolution,
      historyStep path { config with conflictResolution := s } (tgt, m, c) e =
        historyStep path config (tgt, m, c) e) := by
  have hmax : (if ex.lastVisitTime < e.lastVisitTime then e.lastVisitTime
      else ex.lastVisitTime) = max ex.lastVisitTime e.lastVisitTime :=
    ite_lt_eq_max _ _
  have hp := List.find?_some hfind
  refine ⟨?_, ?_, ?_, ?_, ?_⟩
  · simp [historyStep, hfind]
  · simp [historyStep, hfind]
  · simp only [historyStep, hfind, hdry]
    simp [updateFirst_length]
  · simp only [historyStep, hfind, hdry, Bool.false_eq_true, if_false]
    rw [← hmax]
    exact find?_updateFirst _ _ tgt ex hfind hp
  · intro s
    rfl

/-- C4 witness: the amended step theorem evaluated on a concrete raw-url
conflict — counts advance, the entry becomes (7+5, max 50 80). -/
theorem C4_history_conflict_sums_and_maxes_witness :
    (historyStep "s".data c4wConfig ([c4wEx], 0, 0) c4wE).2.1 = 0 + 1 ∧
    (historyStep "s".data c4wConfig ([c4wEx], 0, 0) c4wE).2.2 = 0 + 1 ∧
    (historyStep "s".data c4wConfig ([c4wEx], 0, 0) c4wE).1.length = [c4wEx].length ∧
    (historyStep "s".data c4wConfig ([c4wEx], 0, 0) c4wE).1.find?
        (fun h => h.url == c4wE.url) =
      some { c4wEx with
             visitCount := c4wEx.visitCount + c4wE.visitCount
             lastVisitTime := max c4wEx.lastVisitTime c4wE.lastVisitTime } ∧
    (∀ s : ConflictResolution,
      historyStep "s".data { c4wConfig with conflictResolution := s }
          ([c4wEx], 0, 0) c4wE =
        historyStep "s".data c4wConfig ([c4wEx], 0, 0) c4wE) :=
  C4_history_conflict_sums_and_maxes "s".data c4wConfig [c4wEx] 0 0 c4wE c4wEx
    rfl (by decide)

/-- C7: for a corrupted database, `recoverDatabase` runs the conservative
dump first and returns its result whenever it recovered at least one table;
the aggressive `.recover` is consulted only when the dump recovered zero
tables; and when the verdict is unrecoverable, or both methods recover zero
tables, the result is a failure whose `lostData` names the entire database. -/
theorem C7_recovery_escalation_order
    (integrity : CorruptionCheckResult) (dumpKeep : JStr → Bool) (dumpSize : Int)
    (recKeep : JStr → Bool) (recSize : Int)
    (hc : integrity.isCorrupted = true) :
    (integrity.recoverable = false →
      recoverDatabase integrity dumpKeep dumpSize recKeep recSize =
        { success := false, method := .noMethod, recoveredTables := [],
          lostData := ["entire_database".data], errorLog := [integrity.errorMessage],
          outputSize := 0 }) ∧
    (integrity.recoverable = true →
      ((attemptDumpRecovery dumpKeep dumpSize).recoveredTables ≠ [] →
        recoverDatabase integrity dumpKeep dumpSize recKeep recSize =
          attemptDumpRecovery dumpKeep dumpSize) ∧
      ((attemptDumpRecovery dumpKeep dumpSize).recoveredTables = [] →
        (attemptRecoverCommand recKeep recSize).recoveredTables ≠ [] →
        recoverDatabase integrity dumpKeep dumpSize recKeep recSize =
          attemptRecoverCommand recKeep recSize) ∧
      ((attemptDumpRecovery dumpKeep dumpSize).recoveredTables = [] →
        (attemptRecoverCommand recKeep recSize).recoveredTables = [] →
        (recoverDatabase integrity dumpKeep dumpSize recKeep recSize).success = false ∧
        (recoverDatabase integrity dumpKeep dumpSize recKeep recSize).lostData =
          ["entire_database".data]) ∧
      ((recoverDatabase integrity dumpKeep dumpSize recKeep recSize).method =
          .recover →
        (attemptDumpRecovery dumpKeep dumpSize).recoveredTables = [])) := by
  constructor
  · intro hr
    simp [recoverDatabase, hc, hr]
  · intro hr
    cases hdump : dumpAllTables.filter dumpKeep with
    | nil =>
      have hde : attemptDumpRecovery dumpKeep dumpSize =
          { success := false, method := .dump, recoveredTables := [], lostData := [],
            errorLog := ["No tables could be recovered from database dump".data],
            outputSize := 0 } := by
        simp [attemptDumpRecovery, hdump]
      cases hrec : recoverAllTables.filter recKeep with
      | nil =>
        have hre : attemptRecoverCommand recKeep recSize =
            { success := false, method := .recover, recoveredTables := [], lostData := [],
              errorLog := ["Recovery command found no salvageable data".data],
              outputSize := 0 } := by
          simp [attemptRecoverCommand, hrec]
        refine ⟨fun hne => absurd (by simp [hde]) hne,
                fun _ hcontra => absurd (by simp [hre]) hcontra,
                fun _ _ => ?_, fun _ => by simp [hde]⟩
        constructor <;> simp [recoverDatabase, hc, hr, hde, hre]
      | cons a t =>
        have hre : attemptRecoverCommand recKeep recSize =
            { success := true, method := .recover,
              recoveredTables := a :: t,
              lostData := recoverAllTables.filter
                (fun x => !(a :: t).contains x),
              errorLog := [], outputSize := recSize } := by
          simp only [attemptRecoverCommand]
          rw [hrec]
          simp
        refine ⟨fun hne => absurd (by simp [hde]) hne,
                fun _ _ => ?_,
                fun _ hcontra => ?_,
                fun _ => by simp [hde]⟩
        · simp [recoverDatabase, hc, hr, hde, hre]
        · rw [hre] at hcontra
          simp at hcontra
    | cons a t =>
      have hde : attemptDumpRecovery dumpKeep dumpSize =
          { success := true, method := .dump,
            recoveredTables := a :: t,
            lostData := dumpAllTables.filter
              (fun x => !(a :: t).contains x),
            errorLog := [], outputSize := dumpSize } := by
        simp only [attemptDumpRecovery]
        rw [hdump]
        simp
      refine ⟨fun _ => ?_,
              fun hz _ => absurd (by rw [hde] at hz; exact hz) (by simp),
              fun hz _ => absurd (by rw [hde] at hz; exact hz) (by simp),
              fun hm => ?_⟩
      · simp [recoverDatabase, hc, hr, hde]
      · exfalso
        have hmd : (recoverDatabase integrity dumpKeep dumpSize recKeep recSize).method =
            .dump := by
          simp [recoverDatabase, hc, hr, hde]
        rw [hmd] at hm
        exact RecoveryMethod.noConfusion hm

/-- C7 witness: with a recoverable header-corruption verdict, a dump oracle
recovering nothing and a recover oracle recovering everything, the result is
the `.recover` result; and with the unrecoverable verdict the result names
the whole database as lost. -/
theorem C7_recovery_escalation_order_witness :
    (recoverDatabase c7Integrity (fun _ => false) 0 (fun _ => true) 9 =
      attemptRecoverCommand (fun _ => true) 9) ∧
    (recoverDatabase c7Unrecoverable (fun _ => false) 0 (fun _ => true) 9 =
      { success := false, method := .noMethod, recoveredTables := [],
        lostData := ["entire_database".data],
        errorLog := [c7Unrecoverable.errorMessage], outputSize := 0 }) := by
  constructor
  · exact ((C7_recovery_escalation_order c7Integrity (fun _ => false) 0
      (fun _ => true) 9 rfl).2 rfl).2.1 (by decide) (by decide)
  · exact (C7_recovery_escalation_order c7Unrecoverable (fun _ => false) 0
      (fun _ => true) 9 rfl).1 rfl

set_option maxRecDepth 40000 in
unseal Rat.mul Rat.inv Rat.add Rat.sub in
/-- C6: `calculateUrlSimilarity` returns 1.0 on character-identical URLs,
0.95 when they differ but normalize to the same string, 0.8 when (the URLs
and their normal forms differing) one normalized form contains the other, and
otherwise the string similarity of the two normalized forms; in particular
the Scenario A bookmarks differing only by a trailing slash score 0.95 ≥ 0.95
and land in a single duplicate group under the default 0.8/0.7 thresholds. -/
theorem C6_url_similarity_cases_and_trailing_slash_grouping :
    (∀ u1 u2 : JStr, u1 = u2 → calculateUrlSimilarity u1 u2 = 1) ∧
    (∀ u1 u2 : JStr, u1 ≠ u2 → normalizeUrl u1 = normalizeUrl u2 →
      calculateUrlSimilarity u1 u2 = 95 / 100) ∧
    (∀ u1 u2 : JStr, u1 ≠ u2 → normalizeUrl u1 ≠ normalizeUrl u2 →
      (includesSub (normalizeUrl u1) (normalizeUrl u2) ||
       includesSub (normalizeUrl u2) (normalizeUrl u1)) = true →
      calculateUrlSimilarity u1 u2 = 8 / 10) ∧
    (∀ u1 u2 : JStr, u1 ≠ u2 → normalizeUrl u1 ≠ normalizeUrl u2 →
      (includesSub (normalizeUrl u1) (normalizeUrl u2) ||
       includesSub (normalizeUrl u2) (normalizeUrl u1)) = false →
      calculateUrlSimilarity u1 u2 =
        calculateStringSimilarity (normalizeUrl u1) (normalizeUrl u2)) ∧
    (calculateUrlSimilarity c6Bm1.url c6Bm2.url = 95 / 100 ∧
     ((95 : Rat) / 100 ≥ 95 / 100) ∧
     (findBookmarkDuplicates [c6Bm1, c6Bm2] c6Config).map (fun g => g.items) =
       [[.bm c6Bm1, .bm c6Bm2]]) := by
  refine ⟨?_, ?_, ?_, ?_, by decide, by decide, by decide⟩
  · intro u1 u2 h
    subst h
    simp [calculateUrlSimilarity]
  · intro u1 u2 h1 h2
    simp [calculateUrlSimilarity, h1, h2]
  · intro u1 u2 h1 h2 h3
    simp [calculateUrlSimilarity, h1, h2, h3]
  · intro u1 u2 h1 h2 h3
    simp [calculateUrlSimilarity, h1, h2, h3]

/-- C6 witness: the similarity cases applied at concrete URLs — identical
URLs score 1, a trailing-slash pair scores 0.95. -/
theorem C6_url_similarity_cases_witness :
    calculateUrlSimilarity "https://z.com".data "https://z.com".data = 1 ∧
    calculateUrlSimilarity "https://z.com/".data "https://z.com".data = 95 / 100 :=
  ⟨C6_url_similarity_cases_and_trailing_slash_grouping.1 _ _ rfl,
   C6_url_similarity_cases_and_trailing_slash_grouping.2.1 _ _ (by decide) (by decide)⟩

/-! ### Lemmas for the C5 idempotence analysis of `normalizeUrl` -/

/-- Characters with equal code points are equal. -/
theorem charToNat_inj {c d : Char} (h : c.toNat = d.toNat) : c = d := by
  rw [← Char.ofNat_toNat c, ← Char.ofNat_toNat d, h]

/-- `Char.ofNat` at a valid code point has that code point. -/
theorem toNat_ofNat_valid {n : Nat} (h : n.isValidChar) : (Char.ofNat n).toNat = n := by
  rw [Char.ofNat, dif_pos h]
  simp [Char.ofNatAux, Char.toNat, UInt32.toNat]

/-- The lowered code point of an ASCII uppercase letter. -/
theorem lowerChar_toNat_of_upper {c : Char} (h : 65 ≤ c.toNat ∧ c.toNat ≤ 90) :
    (lowerChar c).toNat = c.toNat + 32 := by
  unfold lowerChar
  rw [if_pos h]
  refine toNat_ofNat_valid ?_
  unfold Nat.isValidChar
  left
  omega

/-- `lowerChar` fixes everything but uppercase ASCII letters. -/
theorem lowerChar_eq_of_not_upper {c : Char} (h : ¬(65 ≤ c.toNat ∧ c.toNat ≤ 90)) :
    lowerChar c = c := by
  unfold lowerChar
  exact if_neg h

/-- Lowercasing is idempotent. -/
theorem lowerChar_idem (c : Char) : lowerChar (lowerChar c) = lowerChar c := by
  by_cases h : 65 ≤ c.toNat ∧ c.toNat ≤ 90
  · refine lowerChar_eq_of_not_upper ?_
    rw [lowerChar_toNat_of_upper h]
    omega
  · rw [lowerChar_eq_of_not_upper h, lowerChar_eq_of_not_upper h]

/-- `isJsWs` is false off the whitespace code points. -/
theorem isJsWs_false_of_toNat {x : Char}
    (h : x.toNat ≠ 32 ∧ x.toNat ≠ 9 ∧ x.toNat ≠ 10 ∧ x.toNat ≠ 13 ∧
      x.toNat ≠ 11 ∧ x.toNat ≠ 12 ∧ x.toNat ≠ 160 ∧ x.toNat ≠ 65279) :
    isJsWs x = false := by
  obtain ⟨h1, h2, h3, h4, h5, h6, h7, h8⟩ := h
  have n1 : ¬(x = ' ') := fun he => h1 (by rw [he]; rfl)
  have n2 : ¬(x = '\t') := fun he => h2 (by rw [he]; rfl)
  have n3 : ¬(x = '\n') := fun he => h3 (by rw [he]; rfl)
  have n4 : ¬(x = '\r') := fun he => h4 (by rw [he]; rfl)
  have n5 : ¬(x = '\x0b') := fun he => h5 (by rw [he]; rfl)
  have n6 : ¬(x = '\x0c') := fun he => h6 (by rw [he]; rfl)
  have n7 : ¬(x = '\u00A0') := fun he => h7 (by rw [he]; rfl)
  have n8 : ¬(x = '\uFEFF') := fun he => h8 (by rw [he]; rfl)
  simp [isJsWs, n1, n2, n3, n4, n5, n6, n7, n8]

/-- Lowercasing does not change whitespace-ness. -/
theorem isJsWs_lowerChar (c : Char) : isJsWs (lowerChar c) = isJsWs c := by
  by_cases h : 65 ≤ c.toNat ∧ c.toNat ≤ 90
  · have h1 : (lowerChar c).toNat = c.toNat + 32 := lowerChar_toNat_of_upper h
    have f1 : isJsWs (lowerChar c) = false := isJsWs_false_of_toNat (by omega)
    have f2 : isJsWs c = false := isJsWs_false_of_toNat (by omega)
    rw [f1, f2]
  · rw [lowerChar_eq_of_not_upper h]

/-- A character surviving at the head of `dropWhile p` fails `p`. -/
theorem head?_dropWhile_not {α : Type} (p : α → Bool) :
    ∀ (l : List α) (a : α), (l.dropWhile p).head? = some a → p a = false
  | [], a, h => by simp at h
  | x :: t, a, h => by
    rw [List.dropWhile_cons] at h
    by_cases hx : p x = true
    · rw [if_pos hx] at h
      exact head?_dropWhile_not p t a h
    · rw [if_neg hx] at h
      simp at h
      subst h
      simpa using hx

/-- `dropWhile` is idempotent. -/
theorem dropWhile_dropWhile {α : Type} (p : α → Bool) (l : List α) :
    (l.dropWhile p).dropWhile p = l.dropWhile p := by
  cases h : l.dropWhile p with
  | nil => rfl
  | cons a t =>
    have hp : p a = false := head?_dropWhile_not p l a (by rw [h]; rfl)
    rw [List.dropWhile_cons, if_neg (by simp [hp])]

/-- A nonempty prefix has the same head. -/
theorem head?_of_prefix {α : Type} {z w : List α} (h : z <+: w) (hz : z ≠ []) :
    w.head? = z.head? := by
  obtain ⟨s, rfl⟩ := h
  obtain ⟨v, t, rfl⟩ := List.exists_cons_of_ne_nil hz
  rfl

/-- The head of a two-sided trim fails the trimming predicate. -/
theorem head?_trimEnds_not (p : Char → Bool) (l : JStr) (a : Char)
    (h : (trimEnds p l).head? = some a) : p a = false := by
  unfold trimEnds at h
  have hs : (l.dropWhile p).reverse.dropWhile p <:+ (l.dropWhile p).reverse :=
    List.dropWhile_suffix p
  have hpre : ((l.dropWhile p).reverse.dropWhile p).reverse <+: l.dropWhile p := by
    have h2 := List.reverse_prefix.mpr hs
    rwa [List.reverse_reverse] at h2
  have hne : ((l.dropWhile p).reverse.dropWhile p).reverse ≠ [] := by
    intro he
    rw [he] at h
    simp at h
  rw [← head?_of_prefix hpre hne] at h
  exact head?_dropWhile_not p l a h

/-- Two-sided trimming is idempotent. -/
theorem trimEnds_idem (p : Char → Bool) (l : JStr) :
    trimEnds p (trimEnds p l) = trimEnds p l := by
  have h1 : (trimEnds p l).dropWhile p = trimEnds p l := by
    cases ht : trimEnds p l with
    | nil => rfl
    | cons a t =>
      have hp : p a = false := head?_trimEnds_not p l a (by rw [ht]; rfl)
      rw [List.dropWhile_cons, if_neg (by simp [hp])]
  conv_lhs => rw [trimEnds, h1]
  rw [show trimEnds p l = ((l.dropWhile p).reverse.dropWhile p).reverse from rfl]
  rw [List.reverse_reverse, dropWhile_dropWhile]

/-- Lowercasing commutes with JS trimming. -/
theorem jsToLower_jsTrim (l : JStr) : jsToLower (jsTrim l) = jsTrim (jsToLower l) := by
  have hpf : isJsWs ∘ lowerChar = isJsWs := funext isJsWs_lowerChar
  show (trimEnds isJsWs l).map lowerChar = trimEnds isJsWs (l.map lowerChar)
  rw [trimEnds, trimEnds, List.dropWhile_map, hpf, ← List.map_reverse,
    List.dropWhile_map, hpf, ← List.map_reverse]

/-- Lowercasing is idempotent on strings. -/
theorem jsToLower_idem (l : JStr) : jsToLower (jsToLower l) = jsToLower l := by
  show (l.map lowerChar).map lowerChar = l.map lowerChar
  rw [List.map_map]
  exact List.map_congr_left (fun a _ => lowerChar_idem a)

/-- Pointwise-fixed maps are the identity. -/
theorem map_eq_self_of {α : Type} {f : α → α} {l : List α}
    (h : ∀ a ∈ l, f a = id a) : l.map f = l := by
  rw [List.map_congr_left h, List.map_id]

/-- `rstripSlashes` over an append. -/
theorem rstripSlashes_append (A B : JStr) :
    rstripSlashes (A ++ B) =
      if rstripSlashes B = [] then rstripSlashes A else A ++ rstripSlashes B := by
  unfold rstripSlashes
  rw [List.reverse_append, List.dropWhile_append]
  by_cases h : (B.reverse.dropWhile (· == '/')).isEmpty = true
  · have hb : B.reverse.dropWhile (· == '/') = [] := by simpa using h
    rw [if_pos h, if_pos (by rw [hb]; rfl)]
  · have hb : B.reverse.dropWhile (· == '/') ≠ [] := by simpa using h
    rw [if_neg h, if_neg (by simpa using hb), List.reverse_append, List.reverse_reverse]

/-- Strings ending in a non-slash are `rstripSlashes`-fixed. -/
theorem rstripSlashes_concat (A : JStr) (c : Char) (hc : ¬(c = '/')) :
    rstripSlashes (A ++ [c]) = A ++ [c] := by
  unfold rstripSlashes
  rw [List.reverse_append]
  show ((c :: A.reverse).dropWhile (· == '/')).reverse = A ++ [c]
  rw [List.dropWhile_cons, if_neg (by simpa using hc)]
  simp

/-- `rstripSlashes` is idempotent. -/
theorem rstripSlashes_idem (l : JStr) :
    rstripSlashes (rstripSlashes l) = rstripSlashes l := by
  unfold rstripSlashes
  rw [List.reverse_reverse, dropWhile_dropWhile]

/-- Members of the slash-stripped string are members of the original. -/
theorem mem_of_mem_rstripSlashes {a : Char} {l : JStr}
    (h : a ∈ rstripSlashes l) : a ∈ l := by
  unfold rstripSlashes at h
  rw [List.mem_reverse] at h
  have := (List.dropWhile_suffix (· == '/')).subset h
  simpa using this

/-- `rstripSlashes` of a string is one of its prefixes. -/
theorem rstripSlashes_prefix (l : JStr) : rstripSlashes l <+: l := by
  unfold rstripSlashes
  have hs : l.reverse.dropWhile (· == '/') <:+ l.reverse := List.dropWhile_suffix _
  have h2 := List.reverse_prefix.mpr hs
  rwa [List.reverse_reverse] at h2

/-- Every list starts with itself (plus anything). -/
theorem begWith_append_self : ∀ (p r : JStr), begWith p (p ++ r) = true
  | [], _ => rfl
  | a :: p, r => by simp [begWith, begWith_append_self p r]

/-- `takeWhile` runs through an all-true prefix. -/
theorem takeWhile_append_of_all {α : Type} (p : α → Bool) :
    ∀ (A B : List α), (∀ c ∈ A, p c = true) →
      (A ++ B).takeWhile p = A ++ B.takeWhile p
  | [], _, _ => rfl
  | a :: A, B, h => by
    rw [List.cons_append, List.takeWhile_cons, if_pos (h a (by simp))]
    rw [takeWhile_append_of_all p A B (fun c hc => h c (by simp [hc]))]
    rfl

/-- `dropWhile` swallows an all-true prefix. -/
theorem dropWhile_append_of_all {α : Type} (p : α → Bool) :
    ∀ (A B : List α), (∀ c ∈ A, p c = true) →
      (A ++ B).dropWhile p = B.dropWhile p
  | [], _, _ => rfl
  | a :: A, B, h => by
    rw [List.cons_append, List.dropWhile_cons, if_pos (h a (by simp))]
    exact dropWhile_append_of_all p A B (fun c hc => h c (by simp [hc]))

/-- The head of a `takeWhile` result is the head of the input and passes `p`. -/
theorem head?_takeWhile {α : Type} (p : α → Bool) (l : List α) (a : α)
    (h : (l.takeWhile p).head? = some a) : l.head? = some a ∧ p a = true := by
  cases l with
  | nil => simp at h
  | cons x t =>
    rw [List.takeWhile_cons] at h
    by_cases hx : p x = true
    · rw [if_pos hx] at h
      simp at h
      subst h
      exact ⟨rfl, hx⟩
    · rw [if_neg hx] at h
      simp at h

/-- A string with no `@` is `afterLastAt`-fixed. -/
theorem afterLastAt_of_no_at {l : JStr} (h : ∀ c ∈ l, ¬(c = '@')) :
    afterLastAt l = l := by
  unfold afterLastAt
  rw [List.takeWhile_eq_self_iff.mpr, List.reverse_reverse]
  intro x hx
  simpa using h x (by simpa using hx)

/-- Characters passing a predicate that a given character fails are distinct
from it. -/
theorem eval_false_ne {f : Char → Bool} {c x : Char}
    (h : f c = true) (hx : f x = false) : ¬(c = x) := by
  intro he
  subst he
  rw [h] at hx
  exact Bool.noConfusion hx

/-- Host characters have code points above 32. -/
theorem isHostChar_gt32 {c : Char} (h : isHostChar c = true) : 32 < c.toNat := by
  simp only [isHostChar, Bool.or_eq_true, Bool.and_eq_true, decide_eq_true_eq,
    beq_iff_eq] at h
  rcases h with (((((h | h) | h) | h) | h) | h) <;>
    first | (obtain ⟨ha, hb⟩ := h; omega) | (subst h; decide)

/-- Path characters have code points above 32. -/
theorem isPathChar_gt32 {c : Char} (h : isPathChar c = true) : 32 < c.toNat := by
  simp only [isPathChar, Bool.or_eq_true, Bool.and_eq_true, decide_eq_true_eq,
    beq_iff_eq] at h
  rcases h with ((((((((((((((((((((h | h) | h) | h) | h) | h) | h) | h) | h) | h) | h) | h) | h) | h) | h) | h) | h) | h) | h) | h) | h) <;>
    first | (obtain ⟨ha, hb⟩ := h; omega) | (subst h; decide)

/-- The head of a list is a member. -/
theorem mem_of_head? {α : Type} {l : List α} {a : α} (h : l.head? = some a) :
    a ∈ l := by
  cases l with
  | nil => simp at h
  | cons x t =>
    simp at h
    subst h
    simp

/-- `dropWhile` fixes a list whose head fails the predicate. -/
theorem dropWhile_eq_self_of_head_false {α : Type} (p : α → Bool) (l : List α)
    (h : ∀ a, l.head? = some a → p a = false) : l.dropWhile p = l := by
  cases l with
  | nil => rfl
  | cons x t =>
    rw [List.dropWhile_cons, if_neg (by simp [h x rfl])]

/-- Facts about any successful `parseFrom`: the protocol is the one passed
in, the hostname is nonempty, all-host-characters and lowercase-fixed, and
the pathname is either the root `/` or starts with `/` and consists of path
characters. -/
theorem parseFrom_facts (proto rest : JStr) (o : URLObj)
    (h : parseFrom proto rest = some o) :
    o.protocol = proto ∧ o.hostname ≠ [] ∧
    (∀ c ∈ o.hostname, isHostChar c = true) ∧
    (∀ c ∈ o.hostname, lowerChar c = c) ∧
    (o.pathname = ['/'] ∨
      (o.pathname.head? = some '/' ∧ ∀ c ∈ o.pathname, isPathChar c = true)) := by
  simp only [parseFrom] at h
  set R := rest.dropWhile (fun c => c == '/' || c == '\\') with hRdef
  set A := R.takeWhile (fun c => !isAuthEnd c) with hAdef
  set T := R.dropWhile (fun c => !isAuthEnd c) with hTdef
  set X := ((afterLastAt A).takeWhile (fun x => x != ':')).map lowerChar with hXdef
  set P := T.takeWhile (fun c => !(c == '?' || c == '#')) with hPdef
  have hostNe : ¬(X.isEmpty = true) → X ≠ [] := fun h1 => by simpa using h1
  have hostAll : ¬((!X.all isHostChar) = true) → ∀ c ∈ X, isHostChar c = true := by
    intro h2 c hc
    exact List.all_eq_true.mp (by simpa using h2) c hc
  have hostLow : ∀ c ∈ X, lowerChar c = c := by
    intro c hc
    rw [hXdef] at hc
    obtain ⟨d, _, rfl⟩ := List.mem_map.mp hc
    exact lowerChar_idem d
  have pathFacts : ¬((!P.all isPathChar) = true) → ¬(P.isEmpty = true) →
      P.head? = some '/' ∧ ∀ c ∈ P, isPathChar c = true := by
    intro h4 h5
    have hPne : P ≠ [] := by simpa using h5
    have hchars : ∀ c ∈ P, isPathChar c = true := fun c hc =>
      List.all_eq_true.mp (by simpa using h4) c hc
    obtain ⟨a, t, hP⟩ := List.exists_cons_of_ne_nil hPne
    have hhead : P.head? = some a := by rw [hP]; rfl
    have htq := head?_takeWhile (fun c => !(c == '?' || c == '#')) T a
      (by rw [← hPdef]; exact hhead)
    have hw := head?_dropWhile_not (fun c => !isAuthEnd c) R a
      (by rw [← hTdef]; exact htq.1)
    have hauth : isAuthEnd a = true := by simpa using hw
    have hqa : ¬(a = '?') ∧ ¬(a = '#') := by simpa using htq.2
    have hpa : isPathChar a = true := hchars a (mem_of_head? hhead)
    have hnb : ¬(a = '\\') := eval_false_ne hpa (by decide)
    have ha2 : a = '/' := by
      simp only [isAuthEnd, Bool.or_eq_true, beq_iff_eq] at hauth
      rcases hauth with ((ha | ha) | ha) | ha
      · exact ha
      · exact absurd ha hqa.1
      · exact absurd ha hqa.2
      · exact absurd ha hnb
    exact ⟨by rw [hhead, ha2], hchars⟩
  split_ifs at h with h1 h2 h3 h4 h5
  · injection h with h
    subst h
    exact ⟨rfl, hostNe h1, hostAll h2, hostLow, Or.inl rfl⟩
  · injection h with h
    subst h
    exact ⟨rfl, hostNe h1, hostAll h2, hostLow, Or.inr (pathFacts h4 h5)⟩

/-- Members of the `www.`-stripped hostname are members of the original. -/
theorem mem_of_mem_stripWww {a : Char} {l : JStr} (h : a ∈ stripWww l) : a ∈ l := by
  unfold stripWww at h
  split at h
  · exact List.mem_of_mem_drop h
  · exact h

/-- A hostname not starting with `www.` is `stripWww`-fixed. -/
theorem stripWww_eq_self {l : JStr} (h : begWith "www.".data l = false) :
    stripWww l = l := by
  unfold stripWww
  simp [h]

/-- URL input preprocessing fixes strings of printable characters. -/
theorem urlPre_eq_self (l : JStr) (h : ∀ c ∈ l, 32 < c.toNat) : urlPre l = l := by
  have hd : ∀ (m : JStr), (∀ c ∈ m, 32 < c.toNat) → m.dropWhile isC0Space = m := by
    intro m hm
    refine dropWhile_eq_self_of_head_false _ _ ?_
    intro a ha
    have hgt := hm a (mem_of_head? ha)
    simp [isC0Space]
    omega
  have htrim : trimEnds isC0Space l = l := by
    unfold trimEnds
    rw [hd l h, hd l.reverse (fun c hc => h c (List.mem_reverse.mp hc)),
      List.reverse_reverse]
  unfold urlPre
  rw [htrim, List.filter_eq_self.mpr]
  intro a ha
  have hgt := h a ha
  have h1 : ¬(a = '\t') := fun he => absurd hgt (by rw [he]; decide)
  have h2 : ¬(a = '\n') := fun he => absurd hgt (by rw [he]; decide)
  have h3 : ¬(a = '\r') := fun he => absurd hgt (by rw [he]; decide)
  simp [h1, h2, h3]

/-- Facts about any successful `parseUrl`: protocol is the canonical `https:`
or `http:`, and the `parseFrom` facts hold for the components. -/
theorem parseUrl_facts (u : JStr) (o : URLObj) (h : parseUrl u = some o) :
    (o.protocol = "https:".data ∨ o.protocol = "http:".data) ∧ o.hostname ≠ [] ∧
    (∀ c ∈ o.hostname, isHostChar c = true) ∧
    (∀ c ∈ o.hostname, lowerChar c = c) ∧
    (o.pathname = ['/'] ∨
      (o.pathname.head? = some '/' ∧ ∀ c ∈ o.pathname, isPathChar c = true)) := by
  simp only [parseUrl] at h
  split_ifs at h with h1 h2
  · have hf := parseFrom_facts _ _ _ h
    exact ⟨Or.inl hf.1, hf.2⟩
  · have hf := parseFrom_facts _ _ _ h
    exact ⟨Or.inr hf.1, hf.2⟩

/-- A well-formed host-plus-path string re-parses to exactly those
components: the converse direction of `parseFrom_facts`. -/
theorem parseFrom_render (proto H Ptl : JStr)
    (hH : H ≠ []) (hHhost : ∀ c ∈ H, isHostChar c = true)
    (hHlow : ∀ c ∈ H, lowerChar c = c)
    (hP : Ptl = [] ∨ (Ptl.head? = some '/' ∧ ∀ c ∈ Ptl, isPathChar c = true)) :
    parseFrom proto (H ++ Ptl) =
      some { protocol := proto, hostname := H,
             pathname := if Ptl.isEmpty then ['/'] else Ptl } := by
  have hhead : ∀ a, (H ++ Ptl).head? = some a → a ∈ H := by
    intro a ha
    rw [ head?_of_prefix (List.prefix_append H Ptl) hH] at ha
    exact mem_of_head? ha
  have step1 : (H ++ Ptl).dropWhile (fun c => c == '/' || c == '\\') = H ++ Ptl := by
    refine dropWhile_eq_self_of_head_false _ _ ?_
    intro a ha
    have h1 := hHhost a (hhead a ha)
    have n1 : ¬(a = '/') := eval_false_ne h1 (by decide)
    have n2 : ¬(a = '\\') := eval_false_ne h1 (by decide)
    simp [n1, n2]
  have hHauth : ∀ c ∈ H, (!isAuthEnd c) = true := by
    intro c hc
    have h1 := hHhost c hc
    have n1 : ¬(c = '/') := eval_false_ne h1 (by decide)
    have n2 : ¬(c = '?') := eval_false_ne h1 (by decide)
    have n3 : ¬(c = '#') := eval_false_ne h1 (by decide)
    have n4 : ¬(c = '\\') := eval_false_ne h1 (by decide)
    simp [isAuthEnd, n1, n2, n3, n4]
  have hPtkw : Ptl.takeWhile (fun c => !isAuthEnd c) = [] := by
    rcases hP with hnil | ⟨hph, _⟩
    · rw [hnil]; rfl
    · cases hPt : Ptl with
      | nil => rfl
      | cons x t =>
        rw [hPt] at hph
        simp at hph
        subst hph
        rw [List.takeWhile_cons, if_neg (by decide)]
  have hPdw : Ptl.dropWhile (fun c => !isAuthEnd c) = Ptl := by
    rcases hP with hnil | ⟨hph, _⟩
    · rw [hnil]; rfl
    · cases hPt : Ptl with
      | nil => rfl
      | cons x t =>
        rw [hPt] at hph
        simp at hph
        subst hph
        rw [List.dropWhile_cons, if_neg (by decide)]
  have step2 : (H ++ Ptl).takeWhile (fun c => !isAuthEnd c) = H := by
    rw [takeWhile_append_of_all _ H Ptl hHauth, hPtkw, List.append_nil]
  have step3 : (H ++ Ptl).dropWhile (fun c => !isAuthEnd c) = Ptl := by
    rw [dropWhile_append_of_all _ H Ptl hHauth, hPdw]
  have step4 : afterLastAt H = H :=
    afterLastAt_of_no_at (fun c hc => eval_false_ne (hHhost c hc) (by decide))
  have step5 : H.takeWhile (fun x => x != ':') = H := by
    rw [List.takeWhile_eq_self_iff]
    intro x hx
    have n1 : ¬(x = ':') := eval_false_ne (hHhost x hx) (by decide)
    simpa using n1
  have step6 : H.map lowerChar = H := map_eq_self_of (fun a ha => hHlow a ha)
  have step7 : H.dropWhile (fun x => x != ':') = [] := by
    rw [List.dropWhile_eq_nil_iff]
    intro x hx
    have n1 : ¬(x = ':') := eval_false_ne (hHhost x hx) (by decide)
    simpa using n1
  have step8 : Ptl.takeWhile (fun c => !(c == '?' || c == '#')) = Ptl := by
    rcases hP with hnil | ⟨_, hchars⟩
    · rw [hnil]; rfl
    · rw [List.takeWhile_eq_self_iff]
      intro x hx
      have h1 := hchars x hx
      have n1 : ¬(x = '?') := eval_false_ne h1 (by decide)
      have n2 : ¬(x = '#') := eval_false_ne h1 (by decide)
      simp [n1, n2]
  have step9 : Ptl.all isPathChar = true := by
    rcases hP with hnil | ⟨_, hchars⟩
    · rw [hnil]; rfl
    · exact List.all_eq_true.mpr hchars
  simp only [parseFrom]
  rw [step1, step2, step3, step4, step5, step6, step7, step8]
  rw [if_neg (by simpa [List.isEmpty_iff] using hH)]
  rw [if_neg (by simp [List.all_eq_true.mpr hHhost])]
  rw [if_neg (by simp)]
  rw [if_neg (by simp [step9])]

/-- A `protocol//host` string ends in a host character, so stripping
trailing slashes fixes it. -/
theorem rstripSlashes_hostEnd (proto H : JStr) (hH : H ≠ [])
    (hHhost : ∀ c ∈ H, isHostChar c = true) :
    rstripSlashes (proto ++ "//".data ++ H) = proto ++ "//".data ++ H := by
  have hsplit := List.dropLast_append_getLast hH
  have hlast : ¬(H.getLast hH = '/') :=
    eval_false_ne (hHhost _ (List.getLast_mem hH)) (by decide)
  conv_lhs => rw [← hsplit, ← List.append_assoc]
  rw [rstripSlashes_concat _ _ hlast, List.append_assoc, hsplit]

/-- `normalizeUrl` fixes a rendered `protocol//host` form whose host does
not start with `www.`. -/
theorem normalizeUrl_fix_base (proto H : JStr)
    (hproto : proto = "https:".data ∨ proto = "http:".data)
    (hH : H ≠ []) (hHhost : ∀ c ∈ H, isHostChar c = true)
    (hHlow : ∀ c ∈ H, lowerChar c = c)
    (hw : begWith "www.".data H = false) :
    normalizeUrl (proto ++ "//".data ++ H) = proto ++ "//".data ++ H := by
  have hrsA := rstripSlashes_hostEnd proto H hH hHhost
  have hpf := parseFrom_render proto H [] hH hHhost hHlow (Or.inl rfl)
  rw [List.append_nil] at hpf
  rcases hproto with hp | hp
  · subst hp
    have hgt : ∀ c ∈ ("https://".data ++ H : JStr), 32 < c.toNat := by
      intro c hc
      rw [List.mem_append] at hc
      rcases hc with hc | hc
      · exact (by decide : ∀ c ∈ "https://".data, 32 < c.toNat) c hc
      · exact isHostChar_gt32 (hHhost c hc)
    have hparse : parseUrl ("https:".data ++ "//".data ++ H) =
        some { protocol := "https:".data, hostname := H, pathname := ['/'] } := by
      rw [show ("https:".data ++ "//".data ++ H : JStr) = "https://".data ++ H from rfl]
      simp only [parseUrl]
      rw [urlPre_eq_self _ hgt, List.map_append,
        show List.map lowerChar "https://".data = "https://".data from rfl,
        begWith_append_self, if_pos rfl,
        show (8 : Nat) = ("https://".data).length from rfl, List.drop_left]
      simpa using hpf
    unfold normalizeUrl
    rw [hparse]
    show renderNorm { protocol := "https:".data, hostname := H, pathname := ['/'] } =
      "https:".data ++ "//".data ++ H
    unfold renderNorm
    rw [stripWww_eq_self hw, rstripSlashes_append, if_pos (by rfl)]
    exact hrsA
  · subst hp
    have hgt : ∀ c ∈ ("http://".data ++ H : JStr), 32 < c.toNat := by
      intro c hc
      rw [List.mem_append] at hc
      rcases hc with hc | hc
      · exact (by decide : ∀ c ∈ "http://".data, 32 < c.toNat) c hc
      · exact isHostChar_gt32 (hHhost c hc)
    have hparse : parseUrl ("http:".data ++ "//".data ++ H) =
        some { protocol := "http:".data, hostname := H, pathname := ['/'] } := by
      rw [show ("http:".data ++ "//".data ++ H : JStr) = "http://".data ++ H from rfl]
      simp only [parseUrl]
      rw [urlPre_eq_self _ hgt, List.map_append,
        show List.map lowerChar "http://".data = "http://".data from rfl,
        show begWith "https://".data ("http://".data ++ List.map lowerChar H) = false
          from rfl,
        if_neg (by simp), begWith_append_self, if_pos rfl,
        show (7 : Nat) = ("http://".data).length from rfl, List.drop_left]
      simpa using hpf
    unfold normalizeUrl
    rw [hparse]
    show renderNorm { protocol := "http:".data, hostname := H, pathname := ['/'] } =
      "http:".data ++ "//".data ++ H
    unfold renderNorm
    rw [stripWww_eq_self hw, rstripSlashes_append, if_pos (by rfl)]
    exact hrsA

/-- `normalizeUrl` fixes a rendered `protocol//host/path` form with a
nonempty, slash-stripped path and a host not starting with `www.`. -/
theorem normalizeUrl_fix_path (proto H Q : JStr)
    (hproto : proto = "https:".data ∨ proto = "http:".data)
    (hH : H ≠ []) (hHhost : ∀ c ∈ H, isHostChar c = true)
    (hHlow : ∀ c ∈ H, lowerChar c = c)
    (hw : begWith "www.".data H = false)
    (hQne : Q ≠ []) (hQh : Q.head? = some '/')
    (hQchars : ∀ c ∈ Q, isPathChar c = true)
    (hQrs : rstripSlashes Q = Q) :
    normalizeUrl (proto ++ "//".data ++ H ++ Q) = proto ++ "//".data ++ H ++ Q := by
  have hpf := parseFrom_render proto H Q hH hHhost hHlow (Or.inr ⟨hQh, hQchars⟩)
  rw [if_neg (by simpa [List.isEmpty_iff] using hQne)] at hpf
  rcases hproto with hp | hp
  · subst hp
    have hgt : ∀ c ∈ ("https://".data ++ (H ++ Q) : JStr), 32 < c.toNat := by
      intro c hc
      rw [List.mem_append] at hc
      rcases hc with hc | hc
      · exact (by decide : ∀ c ∈ "https://".data, 32 < c.toNat) c hc
      · rw [List.mem_append] at hc
        rcases hc with hc | hc
        · exact isHostChar_gt32 (hHhost c hc)
        · exact isPathChar_gt32 (hQchars c hc)
    have hparse : parseUrl ("https:".data ++ "//".data ++ H ++ Q) =
        some { protocol := "https:".data, hostname := H, pathname := Q } := by
      rw [show ("https:".data ++ "//".data ++ H ++ Q : JStr) =
        "https://".data ++ (H ++ Q) from rfl]
      simp only [parseUrl]
      rw [urlPre_eq_self _ hgt, List.map_append,
        show List.map lowerChar "https://".data = "https://".data from rfl,
        begWith_append_self, if_pos rfl,
        show (8 : Nat) = ("https://".data).length from rfl, List.drop_left]
      exact hpf
    unfold normalizeUrl
    rw [hparse]
    show renderNorm { protocol := "https:".data, hostname := H, pathname := Q } =
      "https:".data ++ "//".data ++ H ++ Q
    unfold renderNorm
    rw [stripWww_eq_self hw, rstripSlashes_append, hQrs, if_neg hQne]
  · subst hp
    have hgt : ∀ c ∈ ("http://".data ++ (H ++ Q) : JStr), 32 < c.toNat := by
      intro c hc
      rw [List.mem_append] at hc
      rcases hc with hc | hc
      · exact (by decide : ∀ c ∈ "http://".data, 32 < c.toNat) c hc
      · rw [List.mem_append] at hc
        rcases hc with hc | hc
        · exact isHostChar_gt32 (hHhost c hc)
        · exact isPathChar_gt32 (hQchars c hc)
    have hparse : parseUrl ("http:".data ++ "//".data ++ H ++ Q) =
        some { protocol := "http:".data, hostname := H, pathname := Q } := by
      rw [show ("http:".data ++ "//".data ++ H ++ Q : JStr) =
        "http://".data ++ (H ++ Q) from rfl]
      simp only [parseUrl]
      rw [urlPre_eq_self _ hgt, List.map_append,
        show List.map lowerChar "http://".data = "http://".data from rfl,
        show begWith "https://".data
          ("http://".data ++ List.map lowerChar (H ++ Q)) = false from rfl,
        if_neg (by simp), begWith_append_self, if_pos rfl,
        show (7 : Nat) = ("http://".data).length from rfl, List.drop_left]
      exact hpf
    unfold normalizeUrl
    rw [hparse]
    show renderNorm { protocol := "http:".data, hostname := H, pathname := Q } =
      "http:".data ++ "//".data ++ H ++ Q
    unfold renderNorm
    rw [stripWww_eq_self hw, rstripSlashes_append, hQrs, if_neg hQne]

/-- `normalizeUrl` fixes its own parse-success output whenever the stripped
hostname is nonempty and does not itself start with `www.`. -/
theorem renderNorm_fixed (o : URLObj)
    (hproto : o.protocol = "https:".data ∨ o.protocol = "http:".data)
    (hh : ∀ c ∈ o.hostname, isHostChar c = true)
    (hlow : ∀ c ∈ o.hostname, lowerChar c = c)
    (hpath : o.pathname = ['/'] ∨
      (o.pathname.head? = some '/' ∧ ∀ c ∈ o.pathname, isPathChar c = true))
    (hs : stripWww o.hostname ≠ [])
    (hw : begWith "www.".data (stripWww o.hostname) = false) :
    normalizeUrl (renderNorm o) = renderNorm o := by
  have hHhost : ∀ c ∈ stripWww o.hostname, isHostChar c = true :=
    fun c hc => hh c (mem_of_mem_stripWww hc)
  have hHlow : ∀ c ∈ stripWww o.hostname, lowerChar c = c :=
    fun c hc => hlow c (mem_of_mem_stripWww hc)
  unfold renderNorm
  rw [rstripSlashes_append]
  by_cases hQ : rstripSlashes o.pathname = []
  · rw [if_pos hQ, rstripSlashes_hostEnd _ _ hs hHhost]
    exact normalizeUrl_fix_base o.protocol (stripWww o.hostname) hproto hs hHhost hHlow hw
  · rw [if_neg hQ]
    rcases hpath with hroot | ⟨hph, hchars⟩
    · rw [hroot] at hQ
      exact absurd (by rfl) hQ
    · have hQh : (rstripSlashes o.pathname).head? = some '/' := by
        rw [← head?_of_prefix ( rstripSlashes_prefix o.pathname) hQ]
        exact hph
      have hQchars : ∀ c ∈ rstripSlashes o.pathname, isPathChar c = true :=
        fun c hc => hchars c (mem_of_mem_rstripSlashes hc)
      exact normalizeUrl_fix_path o.protocol (stripWww o.hostname)
        (rstripSlashes o.pathname) hproto hs hHhost hHlow hw hQ hQh hQchars
        (rstripSlashes_idem o.pathname)

set_option maxRecDepth 20000 in
/-- C5 counterexample: `normalizeUrl` is not idempotent.  The hostname
`www.www.example.com` loses one `www.` per pass (`replace(/^www\./, '')`
strips a single occurrence), so a second application changes the output
again. -/
theorem C5_normalize_url_not_idempotent :
    normalizeUrl (normalizeUrl "https://www.www.example.com/a".data) ≠
      normalizeUrl "https://www.www.example.com/a".data := by
  decide

/-- C5 (amended): `normalizeUrl` is idempotent on every URL that either
parses to components whose `www.`-stripped hostname is nonempty and does not
still start with `www.`, or fails to parse both before and after
lowercase-and-trim.  (The unqualified claim fails: see the counterexample
with hostname `www.www.example.com`.) -/
theorem C5_normalize_url_idempotent_on_stable_inputs (u : JStr)
    (h : (∃ o, parseUrl u = some o ∧ stripWww o.hostname ≠ [] ∧
            begWith "www.".data (stripWww o.hostname) = false) ∨
         (parseUrl u = none ∧ parseUrl (jsTrim (jsToLower u)) = none)) :
    normalizeUrl (normalizeUrl u) = normalizeUrl u := by
  rcases h with ⟨o, hpar, hs, hw⟩ | ⟨h1, h2⟩
  · have hf := parseUrl_facts u o hpar
    have hnu : normalizeUrl u = renderNorm o := by
      unfold normalizeUrl
      rw [hpar]
    rw [hnu]
    exact renderNorm_fixed o hf.1 hf.2.2.1 hf.2.2.2.1 hf.2.2.2.2 hs hw
  · have hnu : normalizeUrl u = jsTrim (jsToLower u) := by
      unfold normalizeUrl
      rw [h1]
    rw [hnu]
    have hnu2 : normalizeUrl (jsTrim (jsToLower u)) =
        jsTrim (jsToLower (jsTrim (jsToLower u))) := by
      unfold normalizeUrl
      rw [h2]
    rw [hnu2, jsToLower_jsTrim, jsToLower_idem]
    exact trimEnds_idem isJsWs (jsToLower u)

set_option maxRecDepth 20000 in
/-- C5 witness: the amended idempotence at the concrete, parseable input
`HTTPS://Example.COM/x/`. -/
theorem C5_normalize_url_idempotent_on_stable_inputs_witness :
    normalizeUrl (normalizeUrl "HTTPS://Example.COM/x/".data) =
      normalizeUrl "HTTPS://Example.COM/x/".data :=
  C5_normalize_url_idempotent_on_stable_inputs "HTTPS://Example.COM/x/".data
    (Or.inl ⟨{ protocol := "https:".data, hostname := "example.com".data,
               pathname := "/x/".data },
      by decide, by decide, by decide⟩)
